import Mathlib

/-!
Verification development for the `ds-raster-stats` repository.

The core of the repository is a fast zonal-statistics engine
(`src/utils/raster_utils.py`): given a 2-D numeric raster and a
same-shape label raster of administrative-unit indices, it computes
per-polygon summary statistics via a vectorized group-by-label
reduction; a batch runner iterates it over dates (and lead times) and a
validator checks each record against domain invariants.

Shallow embedding conventions:
- A raster cell is `Val := Option Rat`; `none` models IEEE NaN ("no
  data"), `some q` a finite float.  All concrete values arising in the
  repository's fixtures are exactly representable as rationals.
- Fallible Python code (numpy IndexError / ValueError, Python
  exceptions raised by `validate_stats`) is modelled with
  `Except String`.
- numpy reductions (`np.nanmean`, `np.nanmedian`, ...) are embedded by
  their documented semantics over the non-NaN entries of a row.
- Calendar arithmetic (`dateutil.relativedelta`) is embedded over a
  concrete `Date` structure, including day-of-month clamping.
-/

attribute [local semireducible] Rat.add Rat.mul Rat.sub Rat.inv Rat.ofScientific

deriving instance DecidableEq for Except

/-- A raster cell value: `none` models NaN (nodata), `some q` a finite
float value, represented exactly as a rational. -/
abbrev Val := Option Rat

/-- A 2-D raster as a list of rows. -/
abbrev Arr2 := List (List Val)

/-- Python/numpy `==` on floats: any comparison involving NaN is false. -/
def pyEq (a b : Val) : Bool :=
  match a, b with
  | some x, some y => x == y
  | _, _ => false

/-- The non-NaN entries of a list of cells, in order
(`xs[~np.isnan(xs)]`). -/
def nonNaN (xs : List Val) : List Rat :=
  xs.filterMap id

/-- Insert into an ascending-sorted list (helper for the sort used to
model `np.unique` and `np.nanmedian`). -/
def insertAsc (q : Rat) : List Rat → List Rat
  | [] => [q]
  | x :: xs => if q ≤ x then q :: x :: xs else x :: insertAsc q xs

/-- Sort a list of rationals ascending (insertion sort). -/
def sortAsc : List Rat → List Rat
  | [] => []
  | x :: xs => insertAsc x (sortAsc xs)

/-- Group an ascending-sorted list into (value, multiplicity) pairs. -/
def groupCounts : List Rat → List (Rat × Nat)
  | [] => []
  | x :: xs =>
    match groupCounts xs with
    | [] => [(x, 1)]
    | (y, c) :: rest =>
      if x == y then (y, c + 1) :: rest else (x, 1) :: (y, c) :: rest

/-- `np.unique(xs, return_counts=True)`: ascending distinct values with
their multiplicities. -/
def uniqueCounts (xs : List Rat) : List (Rat × Nat) :=
  groupCounts (sortAsc xs)

/-- `arr.max()` over a list of naturals (`none` on an empty array, where
numpy raises instead). -/
def listMaxNat : List Nat → Option Nat
  | [] => none
  | x :: xs => some (xs.foldl max x)

/-- `arr.max()` over a list of rationals (`none` on an empty array). -/
def listMaxQ : List Rat → Option Rat
  | [] => none
  | x :: xs => some (xs.foldl max x)

/-- Python `int()` on a float: truncation toward zero.  Written with
divisions of nonnegative operands only, so it is independent of the
integer-division rounding convention. -/
def pyInt (q : Rat) : Int :=
  if 0 ≤ q.num then q.num / (q.den : Int) else -((-q.num) / (q.den : Int))

/-- Integer square root (floor), by a structural scan so it reduces in
the kernel. -/
def natSqrt (n : Nat) : Nat :=
  ((List.range (n + 1)).filter (fun k => k * k ≤ n)).length - 1

/-- Rational square root, exact on perfect-square rationals.  `np.nanstd`
returns the real square root of the population variance; every variance
appearing in this development (and in the repository's fixtures) is a
perfect rational square, on which this function is exact. -/
def ratSqrt (q : Rat) : Rat :=
  (natSqrt q.num.toNat : Rat) / (natSqrt q.den : Rat)

/-- `np.nanmean` over one row: mean of the non-NaN entries, NaN if there
are none. -/
def nanmean (row : List Val) : Val :=
  let xs := nonNaN row
  if xs.length = 0 then none else some (xs.sum / (xs.length : Rat))

/-- `np.nanmedian` over one row: median of the non-NaN entries (average
of the two middle elements for an even count), NaN if there are none. -/
def nanmedian (row : List Val) : Val :=
  let xs := sortAsc (nonNaN row)
  let n := xs.length
  if n = 0 then none
  else if n % 2 = 1 then some (xs.getD (n / 2) 0)
  else some ((xs.getD (n / 2 - 1) 0 + xs.getD (n / 2) 0) / 2)

/-- `np.nanmax` over one row (NaN — with a runtime warning — on an
all-NaN row). -/
def nanmax (row : List Val) : Val :=
  listMaxQ (nonNaN row)

/-- `arr.min()` over a list of rationals (`none` on an empty array). -/
def listMinQ : List Rat → Option Rat
  | [] => none
  | x :: xs => some (xs.foldl min x)

/-- `np.nanmin` over one row (NaN on an all-NaN row). -/
def nanmin (row : List Val) : Val :=
  listMinQ (nonNaN row)

/-- `np.nansum` over one row: sum of the non-NaN entries, `0` (not NaN)
on an all-NaN row. -/
def nansum (row : List Val) : Val :=
  some (nonNaN row).sum

/-- `np.nanstd` over one row: population standard deviation (ddof = 0)
of the non-NaN entries, NaN if there are none. -/
def nanstd (row : List Val) : Val :=
  let xs := nonNaN row
  if xs.length = 0 then none
  else
    let m := xs.sum / (xs.length : Rat)
    some (ratSqrt ((xs.map (fun x => (x - m) * (x - m))).sum / (xs.length : Rat)))

/-- The `count` statistic: `np.sum(~np.isnan(x), axis=axis)`, the number
of non-NaN sourced values in the row. -/
def nancount (row : List Val) : Val :=
  some ((nonNaN row).length : Rat)

/-- Remove adjacent duplicates from a sorted list (to model
`np.unique`'s distinct values). -/
def dedupSorted : List Rat → List Rat
  | [] => []
  | [x] => [x]
  | x :: y :: xs => if x == y then dedupSorted (y :: xs) else x :: dedupSorted (y :: xs)

/-- The `unique` statistic: `len(np.unique(row[~np.isnan(row)]))`. -/
def nanunique (row : List Val) : Val :=
  some ((dedupSorted (sortAsc (nonNaN row))).length : Rat)

/-- The `stat_functions` dictionary of `fast_zonal_stats`: maps a
statistic name to its row reduction; `none` for unsupported names (the
source silently skips those). -/
def statFns (s : String) : Option (List Val → Val) :=
  if s = "mean" then some nanmean
  else if s = "median" then some nanmedian
  else if s = "max" then some nanmax
  else if s = "min" then some nanmin
  else if s = "sum" then some nansum
  else if s = "std" then some nanstd
  else if s = "count" then some nancount
  else if s = "unique" then some nanunique
  else none

/-- The default `stats` argument of `fast_zonal_stats` and
`fast_zonal_stats_runner`. -/
def defaultStats : List String :=
  ["mean", "max", "min", "median", "sum", "std", "count"]

/-- Shape of a 2-D numpy array: `(rows, cols)` when the nested list is
rectangular, `none` otherwise (a ragged nested list would not form a
2-D array). -/
def rectShape (a : Arr2) : Option (Nat × Nat) :=
  match a with
  | [] => some (0, 0)
  | r :: rs => if rs.all (fun r2 => r2.length == r.length) then some (rs.length + 1, r.length) else none

/-- `stacked_arrays[0][stacked_arrays[1] == geom_i]`: the source values
at cells whose label equals `g` (float comparison, so NaN labels never
match). -/
def selectWhere (srcF admF : List Val) (g : Rat) : List Val :=
  (srcF.zip admF).filterMap (fun p => if pyEq p.2 (some g) then some p.1 else none)

/-- `sorted_array[idx, 0:n_pixels] = values`: overwrite the first
`vals.length` entries of a row, keeping the rest. -/
def writePrefix (row vals : List Val) : List Val :=
  vals ++ row.drop vals.length

/-- The scatter loop of `fast_zonal_stats`: for each observed label,
write its pixel values into the row indexed by `int(geom_i)` (with
Python's negative-index wrap-around and an `IndexError` when out of
bounds). -/
def scatterRows (srcF admF : List Val) : List (Rat × Nat) → List (List Val) → Except String (List (List Val))
  | [], rows => .ok rows
  | (g, _cnt) :: rest, rows =>
    let idx0 : Int := pyInt g
    let idx : Int := if idx0 < 0 then idx0 + rows.length else idx0
    if 0 ≤ idx ∧ idx < rows.length then
      scatterRows srcF admF rest
        (rows.set idx.toNat (writePrefix (rows.getD idx.toNat []) (selectWhere srcF admF g)))
    else .error "IndexError: index is out of bounds for axis 0"

/-- Embedding of `fast_zonal_stats` (src/src/utils/raster_utils.py,
lines 253-333).  Returns, per feature index, an association list from
requested statistic names to values (Python dicts preserve insertion
order, which is the order of the `stats` argument restricted to
supported names).  Error cases mirror the numpy exceptions: `np.stack`
on mismatched shapes, `geom_ids[0]` on an empty unique-label array,
`pixel_count.max()` on an empty count array, and out-of-bounds row
indexing during the scatter. -/
def fast_zonal_stats (src_raster admin_raster : Arr2) (n_adms : Option Nat)
    (stats : List String) (rast_fill : Val) : Except String (List (List (String × Val))) :=
  match rectShape src_raster, rectShape admin_raster with
  | some s1, some s2 =>
    if s1 = s2 then
      let srcF := src_raster.flatten
      let admF := admin_raster.flatten
      let drop_nans := nonNaN admF
      match uniqueCounts drop_nans with
      | [] => .error "IndexError: index 0 is out of bounds for axis 0 with size 0"
      | g0 :: rest =>
        let gc2 := if pyEq (some g0.1) rast_fill then rest else g0 :: rest
        match listMaxNat (gc2.map Prod.snd), listMaxQ (gc2.map Prod.fst) with
        | some largest, some gmax =>
          let n_features : Nat :=
            match n_adms with
            | some n => if n ≠ 0 then n else (pyInt gmax + 1).toNat
            | none => (pyInt gmax + 1).toNat
          match scatterRows srcF admF gc2
              (List.replicate n_features (List.replicate largest rast_fill)) with
          | .ok rows =>
            .ok (rows.map (fun row =>
              stats.filterMap (fun s => (statFns s).map (fun f => (s, f row)))))
          | .error e => .error e
        | _, _ => .error "ValueError: zero-size array to reduction operation maximum"
    else .error "ValueError: all input arrays must have the same shape"
  | _, _ => .error "ValueError: setting an array element with a sequence"

/-!
## Calendar arithmetic

`add_months_to_date` (src/src/utils/general_utils.py, lines 12-36) adds
`relativedelta(months=k)` to a date; `validate_stats` compares a
record's leadtime with `relativedelta(valid_date, issued_date).months`.
Dates are embedded as year/month/day triples; string parsing and
formatting of the `YYYY-MM-DD` wire format is treated as representation
and not modelled.
-/

/-- A calendar date (as produced by `datetime.date` /
`datetime.datetime` at midnight). -/
structure Date where
  year : Int
  month : Int
  day : Int
deriving DecidableEq, Repr

/-- Gregorian leap-year test. -/
def isLeap (y : Int) : Bool :=
  (y % 4 == 0 && y % 100 != 0) || y % 400 == 0

/-- Number of days in a month. -/
def daysInMonth (y m : Int) : Int :=
  if m = 2 then (if isLeap y then 29 else 28)
  else if m = 4 ∨ m = 6 ∨ m = 9 ∨ m = 11 then 30
  else 31

/-- A well-formed calendar date. -/
def Date.WF (d : Date) : Prop :=
  1 ≤ d.month ∧ d.month ≤ 12 ∧ 1 ≤ d.day ∧ d.day ≤ daysInMonth d.year d.month

instance (d : Date) : Decidable d.WF := by
  unfold Date.WF
  infer_instance

/-- Months elapsed since the epoch month, ignoring days: used by the
month arithmetic of `relativedelta`. -/
def totalMonths (d : Date) : Int :=
  12 * d.year + (d.month - 1)

/-- Strict date comparison (`datetime` comparison is lexicographic on
(year, month, day)). -/
def dateLt (a b : Date) : Bool :=
  a.year < b.year ||
    (a.year == b.year && (a.month < b.month || (a.month == b.month && a.day < b.day)))

/-- Non-strict date comparison. -/
def dateLe (a b : Date) : Bool :=
  dateLt a b || a == b

/-- Embedding of `add_months_to_date`: `date + relativedelta(months=k)`.
`relativedelta` shifts the month (normalizing into the year) and clamps
the day of month to the target month's length.  Python's `divmod` is
floor division, i.e. `Int.ediv`/`Int.emod`. -/
def add_months_to_date (d : Date) (k : Int) : Date :=
  let t := totalMonths d + k
  let y := t / 12
  let m := t % 12 + 1
  { year := y, month := m, day := min d.day (daysInMonth y m) }

/-- The `months` field of `relativedelta(dt1, dt2)` for `dt1 ≥ dt2` (the
only case in which `validate_stats` evaluates it: the `issued_date ≤
valid_date` check precedes it).  `dateutil` first takes the raw
(year, month) difference, decrements it while `dt2 + months` overshoots
`dt1` (here at most one decrement can fire, since the raw difference
lands in `dt1`'s own month), and then splits the result into whole years
and a months component in `0..11`; only the months component is stored
in `.months`. -/
def relativedelta_months (dt1 dt2 : Date) : Int :=
  let raw := totalMonths dt1 - totalMonths dt2
  let t := if dateLt dt1 (add_months_to_date dt2 raw) then raw - 1 else raw
  t % 12

/-- The adjusted whole-month difference between `dt1` and `dt2` (for
`dt1 ≥ dt2`): the total number of whole `relativedelta` months, before
being split into years and a months remainder.  This is the spec's
"whole-month difference between valid_date and issued_date"; the code
compares the leadtime against `relativedelta_months`, its residue
modulo 12, instead. -/
def wholeMonthsDiff (dt1 dt2 : Date) : Int :=
  let raw := totalMonths dt1 - totalMonths dt2
  if dateLt dt1 (add_months_to_date dt2 raw) then raw - 1 else raw

/-!
## The Result Validator

Embedding of `validate_stats` (src/src/utils/raster_utils.py, lines
37-124).  A record is embedded structurally rather than as a Python
dict: the statistic fields that `validate_stats` reads are `min`, `max`,
`mean`, `median`, `std` (each possibly NaN), `count` (the reducer always
produces a nonnegative integer count, embedded as `Int`), `adm_level`,
`valid_date`, and the optional forecast fields `issued_date` and
`leadtime`.  Error strings name the violated invariant; the source
interpolates the offending values into the message, which is not
reproduced here.
-/

/-- The fields of one stats record as read by `validate_stats`. -/
structure StatsRecord where
  min : Val
  max : Val
  mean : Val
  median : Val
  std : Val
  count : Int
  adm_level : Int
  valid_date : Date
  issued_date : Option Date
  leadtime : Option Int
deriving DecidableEq, Repr

/-- `re.compile("^[A-Z]{3}$")` matched against the iso3 code: exactly
three uppercase ASCII letters. -/
def validIso3 (s : String) : Bool :=
  s.length == 3 && s.toList.all (fun c => 'A' ≤ c && c ≤ 'Z')

/-- The std / count / adm_level / iso3 / temporal checks of
`validate_stats`. -/
def validateStdOn (now : Date) (iso3 : String) (stats : StatsRecord) : Except String StatsRecord :=
  let stdCheck : Except String Unit :=
    match stats.std with
    | some sd => if ¬ (0 ≤ sd) then .error "Validation error: std is not >= 0" else .ok ()
    | none => .ok ()
  match stdCheck with
  | .error e => .error e
  | .ok _ =>
    if ¬ (0 ≤ stats.count) then .error "Validation error: count is not >= 0"
    else if ¬ (0 ≤ stats.adm_level ∧ stats.adm_level ≤ 4) then
      .error "Validation error: adm_level is not between 0 and 4"
    else if ¬ validIso3 iso3 then .error "Validation error: iso3 is not valid"
    else
      match stats.issued_date with
      | some issued =>
        if ¬ (dateLe issued stats.valid_date) then
          .error "Validation error: issued_date is not <= valid_date"
        else
          match stats.leadtime with
          | some lt =>
            if ¬ (0 ≤ lt ∧ lt ≤ 6) then
              .error "Validation error: leadtime is not between 0 and 6"
            else if lt ≠ relativedelta_months stats.valid_date issued then
              .error "Validation error: leadtime should match the diff between issued_date and valid_date"
            else .ok stats
          | none => .ok stats
      | none =>
        if ¬ (dateLe stats.valid_date now) then
          .error "Validation error: valid_date is not <= current date"
        else .ok stats

/-- The median check of `validate_stats` (reached only when min and max
are non-NaN), then the remaining checks. -/
def validateMedianOn (now : Date) (iso3 : String) (stats : StatsRecord) (mn mx : Rat) : Except String StatsRecord :=
  match stats.median with
  | some md =>
    if ¬ (mn ≤ md ∧ md ≤ mx) then
      .error "Validation error: median is not between min and max"
    else validateStdOn now iso3 stats
  | none => validateStdOn now iso3 stats

/-- Embedding of `validate_stats`.  The checks run in source order, each
raising (`.error`) on its violation; NaN (`none`) operands skip the
min/max block, the mean check, the median check and the std check, as in
the source (`np.isnan` guards).  On success the record is returned
unchanged. -/
def validate_stats (now : Date) (iso3 : String) (stats : StatsRecord) : Except String StatsRecord :=
  match stats.min, stats.max with
  | some mn, some mx =>
    if ¬ (mn ≤ mx) then .error "Validation error: min is not <= max"
    else
      match stats.mean with
      | some me =>
        if ¬ (mn ≤ me ∧ me ≤ mx) then
          .error "Validation error: mean is not between min and max"
        else validateMedianOn now iso3 stats mn mx
      | none => validateMedianOn now iso3 stats mn mx
  | _, _ => validateStdOn now iso3 stats

/-!
## The validation rules as independent predicates

`violatesSpecRules` is written from the specification's wording (the
claimed rule set, with "leadtime equals the whole-month difference
between valid_date and issued_date"); `violatesCodeRules` differs from
it in exactly one place — the leadtime/month rule uses the months
component modulo whole years (`relativedelta(...).months`), which is
what the source compares against.
-/

/-- Rule "min ≤ max", NaN short-circuiting. -/
def minMaxViolation (r : StatsRecord) : Bool :=
  match r.min, r.max with
  | some mn, some mx => decide (¬ (mn ≤ mx))
  | _, _ => false

/-- Rule "min ≤ mean ≤ max", skipped when min, max or mean is NaN. -/
def meanViolation (r : StatsRecord) : Bool :=
  match r.min, r.max, r.mean with
  | some mn, some mx, some me => decide (¬ (mn ≤ me ∧ me ≤ mx))
  | _, _, _ => false

/-- Rule "min ≤ median ≤ max", skipped when min, max or median is NaN. -/
def medianViolation (r : StatsRecord) : Bool :=
  match r.min, r.max, r.median with
  | some mn, some mx, some md => decide (¬ (mn ≤ md ∧ md ≤ mx))
  | _, _, _ => false

/-- Rule "std ≥ 0", NaN short-circuiting. -/
def stdViolation (r : StatsRecord) : Bool :=
  match r.std with
  | some sd => decide (¬ (0 ≤ sd))
  | none => false

/-- The temporal rules, parameterized by how the whole-month difference
between valid and issued dates is measured. -/
def temporalViolation (monthDiff : Date → Date → Int) (now : Date) (r : StatsRecord) : Bool :=
  match r.issued_date with
  | some issued =>
    dateLt r.valid_date issued ||
      (match r.leadtime with
       | some lt => decide (¬ (0 ≤ lt ∧ lt ≤ 6)) || decide (lt ≠ monthDiff r.valid_date issued)
       | none => false)
  | none => dateLt now r.valid_date

/-- The record violates the rule set as the specification states it
("leadtime equal to the whole-month difference between valid_date and
issued_date"). -/
def violatesSpecRules (now : Date) (iso3 : String) (r : StatsRecord) : Bool :=
  minMaxViolation r || meanViolation r || medianViolation r || stdViolation r ||
    decide (r.count < 0) || decide (¬ (0 ≤ r.adm_level ∧ r.adm_level ≤ 4)) ||
    !(validIso3 iso3) || temporalViolation wholeMonthsDiff now r

/-- The record violates the rule set the source actually checks: as
`violatesSpecRules`, but the leadtime must equal the months *component*
of the calendar difference (`relativedelta(valid, issued).months`, i.e.
the whole-month difference reduced modulo whole years). -/
def violatesCodeRules (now : Date) (iso3 : String) (r : StatsRecord) : Bool :=
  minMaxViolation r || meanViolation r || medianViolation r || stdViolation r ||
    decide (r.count < 0) || decide (¬ (0 ≤ r.adm_level ∧ r.adm_level ≤ 4)) ||
    !(validIso3 iso3) || temporalViolation relativedelta_months now r

/-!
## The Admin Rasterizer and the Batch Runner

`rasterize_admin` (src/src/utils/raster_utils.py, lines 454-502) first
overwrites the geometry column of the *passed* GeoDataFrame with its
simplified geometry (`gdf["geometry"] = gdf["geometry"].simplify(...)`),
then burns each geometry with its zero-based positional index.  The
geometric burning (`rasterio.features.rasterize`) and the
Douglas-Peucker simplification (`shapely`, GEOS) are external
collaborators: the burner is taken as a function parameter, and
simplification is likewise a parameter, with `dropCollinear` as a
minimal concrete model of its behaviour on exactly-collinear vertices.
The in-place mutation of the caller's frame is modelled by returning
the updated frame alongside each result.
-/

/-- A point of the plane. -/
abbrev Point := Rat × Rat

/-- A polygon, as its ring of vertices. -/
abbrev Geom := List Point

/-- Vertex `b` lies exactly on the segment from `a` to `c`: collinear
(zero cross product) and between the endpoints (nonpositive dot product
of the vectors toward them). -/
def onSegment (a b c : Point) : Bool :=
  ((b.1 - a.1) * (c.2 - a.2) - (b.2 - a.2) * (c.1 - a.1) == 0) &&
    ((a.1 - b.1) * (c.1 - b.1) + (a.2 - b.2) * (c.2 - b.2) ≤ 0)

/-- A minimal concrete model of
`geometry.simplify(tolerance=0.001, preserve_topology=True)`: a vertex
lying exactly on the segment between its neighbours (deviation 0, below
any positive tolerance) is removed by Douglas-Peucker simplification.
Only this zero-deviation behaviour of the external GEOS simplifier is
relied on. -/
def dropCollinearAux : Nat → Geom → Geom
  | fuel + 1, a :: b :: c :: rest =>
    if onSegment a b c then dropCollinearAux fuel (a :: c :: rest)
    else a :: dropCollinearAux fuel (b :: c :: rest)
  | _, l => l

/-- Remove every vertex lying exactly on the segment between its
neighbours (fuelled by the ring length, so the recursion is
structural). -/
def dropCollinear (g : Geom) : Geom :=
  dropCollinearAux g.length g

/-- The GeoDataFrame of admin boundaries, reduced to the columns the
runner reads: the geometry column and the `ADM{level}_PCODE` column. -/
structure GeoDataFrame where
  geometry : List Geom
  pcodes : List String
deriving DecidableEq, Repr

/-- Embedding of `rasterize_admin`: simplify the geometry column *in
place* on the passed frame, then burn `(geometry, positional index)`
pairs into a label raster via the external `burn` collaborator
(`rasterio.features.rasterize` with the given output shape, NaN fill
and `all_touched=False`).  Returns the raster together with the
caller-visible state of the frame after the call. -/
def rasterize_admin (burn : List (Geom × Nat) → Nat → Nat → Arr2)
    (simplify : Geom → Geom) (gdf : GeoDataFrame)
    (src_width src_height : Nat) : Arr2 × GeoDataFrame :=
  let simplified := gdf.geometry.map simplify
  let shapes := simplified.enum.map (fun p => (p.2, p.1))
  (burn shapes src_width src_height, { gdf with geometry := simplified })

/-- An input raster dataset, after `validate_dimensions`: either 3-D
(x, y, date) or 4-D with a named fourth dimension (e.g. `leadtime` or
`band`).  Each date is paired with its spatial slice(s), as `xarray`
pairs coordinate values with data. -/
inductive RasterDS
| d3 (slices : List (Date × Arr2))
| d4 (dimName : String) (slices : List (Date × List (Int × Arr2)))
deriving Repr

/-- `np.all(np.isnan(slice.values))`. -/
def allNaN (a : Arr2) : Bool :=
  a.flatten.all (fun v => v.isNone)

/-- One output row of the Batch Runner: the per-statistic values
together with the attached key fields. -/
structure OutRecord where
  stats : List (String × Val)
  valid_date : Date
  issued_date : Option Date
  pcode : String
  adm_level : Int
  fourthVal : Option (String × Int)
  iso3 : String
deriving DecidableEq, Repr

/-- Read the fields `validate_stats` accesses out of one per-polygon
statistics dict (`stats["min"]`, etc.).  A missing key is a Python
`KeyError`; a NaN count fails the `count >= 0` check exactly as the
source does (`np.nan >= 0` is false).  The source reads `mean` and
`median` lazily (only when min and max are non-NaN); with the default
statistics list all keys are always present, so the eager reads here
coincide. -/
def toStatsRecord (d : List (String × Val)) (valid : Date) (issued : Option Date)
    (lt : Option Int) (adm : Int) : Except String StatsRecord :=
  match d.lookup "min", d.lookup "max", d.lookup "mean", d.lookup "median",
      d.lookup "std", d.lookup "count" with
  | some mn, some mx, some me, some md, some sd, some cnt =>
    match cnt with
    | some c =>
      if c.den = 1 then
        .ok { min := mn, max := mx, mean := me, median := md, std := sd,
              count := c.num, adm_level := adm, valid_date := valid,
              issued_date := issued, leadtime := lt }
      else .error "TypeError: non-integer count"
    | none => .error "Validation error: count is not >= 0"
  | _, _, _, _, _, _ => .error "KeyError"

/-- The per-record body of the runner's inner loop: look up the pcode
positionally (`adm_ids[i]`), attach `valid_date`, the derived
`issued_date = valid_date - leadtime months` for a `leadtime` fourth
dimension, `adm_level` and the fourth-dimension value, and validate the
record. -/
def attachRecord (now : Date) (iso3 : String) (adm_ids : List String) (adm_level : Int)
    (date : Date) (fourth : Option (String × Int))
    (p : Nat × List (String × Val)) : Except String OutRecord :=
  match adm_ids.get? p.1 with
  | none => .error "KeyError: positional pcode index out of range"
  | some pc =>
    let issued : Option Date :=
      match fourth with
      | some (nm, v) => if nm = "leadtime" then some (add_months_to_date date (-v)) else none
      | none => none
    let lt : Option Int :=
      match fourth with
      | some (nm, v) => if nm = "leadtime" then some v else none
      | none => none
    match toStatsRecord p.2 date issued lt adm_level with
    | .error e => .error e
    | .ok sr =>
      match validate_stats now iso3 sr with
      | .error e => .error e
      | .ok _ =>
        .ok { stats := p.2, valid_date := date, issued_date := issued, pcode := pc,
              adm_level := adm_level, fourthVal := fourth, iso3 := iso3 }

/-- Reduce one (date, [fourth-dim value]) spatial slice: run
`fast_zonal_stats` with `n_adms = len(adm_ids)` and the NaN raster
fill, then attach keys to and validate every resulting record. -/
def process_slice (now : Date) (iso3 : String) (admin : Arr2) (adm_ids : List String)
    (adm_level : Int) (stats : List String) (date : Date)
    (fourth : Option (String × Int)) (sl : Arr2) : Except String (List OutRecord) :=
  match fast_zonal_stats sl admin (some adm_ids.length) stats none with
  | .error e => .error e
  | .ok results => results.enum.mapM (attachRecord now iso3 adm_ids adm_level date fourth)

/-- The 4-D inner loop for one date: iterate the fourth dimension,
skipping slices whose values are entirely NaN (they contribute no
rows). -/
def process_date_4d (now : Date) (iso3 : String) (admin : Arr2) (adm_ids : List String)
    (adm_level : Int) (stats : List String) (dimName : String)
    (dsl : Date × List (Int × Arr2)) : Except String (List OutRecord) :=
  match (dsl.2.filter (fun p => !(allNaN p.2))).mapM
      (fun p => process_slice now iso3 admin adm_ids adm_level stats dsl.1
        (some (dimName, p.1)) p.2) with
  | .ok ls => .ok ls.flatten
  | .error e => .error e

/-- Embedding of `fast_zonal_stats_runner` (src/src/utils/
raster_utils.py, lines 127-250): rasterize the admin bounds once, before
the date loop; iterate the date axis (and the fourth axis when present,
skipping all-NaN slices); reduce every slice against the single label
raster; attach keys and validate each record; concatenate all rows.
The optional persistence call is outside the scope of this model (the
returned table is the result in either case).  The caller-visible
GeoDataFrame state (mutated by `rasterize_admin`) is returned alongside
the table. -/
def fast_zonal_stats_runner (burn : List (Geom × Nat) → Nat → Nat → Arr2)
    (simplify : Geom → Geom) (now : Date) (ds : RasterDS) (gdf : GeoDataFrame)
    (adm_level : Int) (iso3 : String) (stats : List String)
    (src_width src_height : Nat) : (Except String (List OutRecord)) × GeoDataFrame :=
  let pr := rasterize_admin burn simplify gdf src_width src_height
  let res : Except String (List OutRecord) :=
    match ds with
    | .d3 slices =>
      match slices.mapM (fun dsl =>
          process_slice now iso3 pr.1 pr.2.pcodes adm_level stats dsl.1 none dsl.2) with
      | .ok ls => .ok ls.flatten
      | .error e => .error e
    | .d4 dimName slices =>
      match slices.mapM
          (process_date_4d now iso3 pr.1 pr.2.pcodes adm_level stats dimName) with
      | .ok ls => .ok ls.flatten
      | .error e => .error e
  (res, pr.2)

/-- The per-date variant of the 3-D runner: re-invoke the Admin
Rasterizer for every date slice (threading the frame state its mutation
leaves behind) instead of caching the label raster. -/
def runner_perdate_d3 (burn : List (Geom × Nat) → Nat → Nat → Arr2)
    (simplify : Geom → Geom) (now : Date) (adm_level : Int) (iso3 : String)
    (stats : List String) (src_width src_height : Nat) :
    List (Date × Arr2) → GeoDataFrame → (Except String (List OutRecord)) × GeoDataFrame
  | [], g => (.ok [], g)
  | dsl :: rest, g =>
    let pr := rasterize_admin burn simplify g src_width src_height
    match process_slice now iso3 pr.1 pr.2.pcodes adm_level stats dsl.1 none dsl.2 with
    | .error e => (.error e, pr.2)
    | .ok rs =>
      match runner_perdate_d3 burn simplify now adm_level iso3 stats src_width src_height rest pr.2 with
      | (.ok rs2, g2) => (.ok (rs ++ rs2), g2)
      | (e, g2) => (e, g2)

/-- The per-date variant of the 4-D runner: re-rasterize per date
slice, reusing the raster across the inner (leadtime) loop of that
date. -/
def runner_perdate_d4 (burn : List (Geom × Nat) → Nat → Nat → Arr2)
    (simplify : Geom → Geom) (now : Date) (adm_level : Int) (iso3 : String)
    (stats : List String) (src_width src_height : Nat) (dimName : String) :
    List (Date × List (Int × Arr2)) → GeoDataFrame →
      (Except String (List OutRecord)) × GeoDataFrame
  | [], g => (.ok [], g)
  | dsl :: rest, g =>
    let pr := rasterize_admin burn simplify g src_width src_height
    match process_date_4d now iso3 pr.1 pr.2.pcodes adm_level stats dimName dsl with
    | .error e => (.error e, pr.2)
    | .ok rs =>
      match runner_perdate_d4 burn simplify now adm_level iso3 stats src_width src_height dimName rest pr.2 with
      | (.ok rs2, g2) => (.ok (rs ++ rs2), g2)
      | (e, g2) => (e, g2)

/-- The re-rasterizing variant of the Batch Runner (the refinement
comparison point for the cache-once design). -/
def fast_zonal_stats_runner_perdate (burn : List (Geom × Nat) → Nat → Nat → Arr2)
    (simplify : Geom → Geom) (now : Date) (ds : RasterDS) (gdf : GeoDataFrame)
    (adm_level : Int) (iso3 : String) (stats : List String)
    (src_width src_height : Nat) : (Except String (List OutRecord)) × GeoDataFrame :=
  match ds with
  | .d3 slices =>
    runner_perdate_d3 burn simplify now adm_level iso3 stats src_width src_height slices gdf
  | .d4 dimName slices =>
    runner_perdate_d4 burn simplify now adm_level iso3 stats src_width src_height dimName slices gdf

/-!
## The reference fixture

The repository's tests pin a 4 polygon-vs-raster scenario
(src/tests/test_raster_stats.py): a 4x4 grid over [-1,1]^2 holding
1..16 on 2021-01-01 and 17..32 on 2021-01-02, and three polygons
LEFT / TOP / RIGHT whose rasterization at this grid is asserted by
`test_rasterize_admin` to label exactly cell (2,1) with LEFT's index
and cells (1,2), (2,2) with RIGHT's index, TOP covering no pixel
center.  The burner below returns that pinned label raster; with the
polygons reordered LEFT / RIGHT / TOP the same cells carry the
reordered positional indices (RIGHT becomes index 1).
-/

/-- Day-1 source slice of the reference fixture (values 1..16). -/
def srcDay1 : Arr2 :=
  [[some 1, some 2, some 3, some 4], [some 5, some 6, some 7, some 8],
   [some 9, some 10, some 11, some 12], [some 13, some 14, some 15, some 16]]

/-- Day-2 source slice of the reference fixture (values 17..32). -/
def srcDay2 : Arr2 :=
  [[some 17, some 18, some 19, some 20], [some 21, some 22, some 23, some 24],
   [some 25, some 26, some 27, some 28], [some 29, some 30, some 31, some 32]]

/-- The label raster for polygon order LEFT, TOP, RIGHT, as asserted by
`test_rasterize_admin`. -/
def adminFix1 : Arr2 :=
  [[none, none, none, none], [none, none, some 2, none],
   [none, some 0, some 2, none], [none, none, none, none]]

/-- The label raster for polygon order LEFT, RIGHT, TOP: the same cells,
relabelled with the new positional indices. -/
def adminFix2 : Arr2 :=
  [[none, none, none, none], [none, none, some 1, none],
   [none, some 0, some 1, none], [none, none, none, none]]

/-- The LEFT polygon ring of the reference fixture. -/
def leftGeom : Geom :=
  [(-1, -1), (-0.5, -0.8), (0, -0.5), (-0.2, 0), (-0.8, 0.2), (-1, 0.5)]

/-- The TOP polygon ring (no covered pixel centers). -/
def topGeom : Geom :=
  [(-0.2, 0.2), (0.2, 0.5), (0, 1), (-0.5, 0.8)]

/-- The RIGHT polygon ring. -/
def rightGeom : Geom :=
  [(0.2, -1), (1, -0.8), (0.8, 0), (1, 0.5), (0.5, 0.8), (0, 0.2)]

/-- The boundary collection in order LEFT, TOP, RIGHT. -/
def gdfFix1 : GeoDataFrame :=
  { geometry := [leftGeom, topGeom, rightGeom], pcodes := ["LEFT", "TOP", "RIGHT"] }

/-- The boundary collection with the uncovered polygon last:
LEFT, RIGHT, TOP. -/
def gdfFix2 : GeoDataFrame :=
  { geometry := [leftGeom, rightGeom, topGeom], pcodes := ["LEFT", "RIGHT", "TOP"] }

/-- Shorthand for an observational (non-forecast) output row of the
reference fixture at admin level 1, iso3 TST. -/
def obsRow (mean mx mn md sm sd cnt : Val) (valid : Date) (pcode : String) : OutRecord :=
  { stats := [("mean", mean), ("max", mx), ("min", mn), ("median", md),
              ("sum", sm), ("std", sd), ("count", cnt)],
    valid_date := valid, issued_date := none, pcode := pcode, adm_level := 1,
    fourthVal := none, iso3 := "TST" }

/-- The all-NaN output row for a polygon with zero covered pixels. -/
def nanRow (valid : Date) (pcode : String) : OutRecord :=
  obsRow none none none none (some 0) none (some 0) valid pcode

/-- The forecast record produced by the per-slice worker on a 1x1
raster with value 5, polygon "AAA", date 2021-02-01, leadtime 1. -/
def leadtimeWitnessRecord : OutRecord :=
  { stats := [("mean", some 5), ("max", some 5), ("min", some 5), ("median", some 5),
              ("sum", some 5), ("std", some 0), ("count", some 1)],
    valid_date := ⟨2021, 2, 1⟩, issued_date := some ⟨2021, 1, 1⟩, pcode := "AAA",
    adm_level := 1, fourthVal := some ("leadtime", 1), iso3 := "TST" }

/-- A small 4-D fixture: one valid leadtime slice on the first date,
an all-NaN slice beside it, and an all-NaN-only second date. -/
def witnessSlices4d : List (Date × List (Int × Arr2)) :=
  [(⟨2021, 2, 1⟩, [(1, [[some 5]]), (2, [[none]])]),
   (⟨2021, 3, 1⟩, [(1, [[none]])])]

/-- A single-polygon boundary collection for the small fixtures. -/
def witnessGdf : GeoDataFrame :=
  { geometry := [[(0, 0)]], pcodes := ["AAA"] }

/-- A square ring with an extra vertex lying exactly on its bottom
edge: simplification removes the redundant vertex. -/
def collinearGdf : GeoDataFrame :=
  { geometry := [[(0, 0), (1, 0), (2, 0), (2, 2), (0, 2)]], pcodes := ["AAA"] }

/-- A well-formed forecast record used to witness acceptance by the
validator. -/
def goodRecord : StatsRecord :=
  { min := some 1, max := some 3, mean := some 2, median := some 2, std := some 1,
    count := 2, adm_level := 1, valid_date := ⟨2021, 2, 1⟩,
    issued_date := some ⟨2021, 1, 1⟩, leadtime := some 1 }

/-- A forecast record whose issued and valid dates are exactly one year
apart with a stored leadtime of 0: its whole-month difference is 12. -/
def yearApartRecord : StatsRecord :=
  { min := some 1, max := some 1, mean := some 1, median := some 1, std := some 0,
    count := 1, adm_level := 1, valid_date := ⟨2021, 1, 1⟩,
    issued_date := some ⟨2020, 1, 1⟩, leadtime := some 0 }

/-- The statistic names `fast_zonal_stats` supports. -/
def supportedStats : List String :=
  ["mean", "median", "max", "min", "sum", "std", "count", "unique"]

/-!
## Theorems
-/

set_option maxRecDepth 8000 in
example :
    (fast_zonal_stats
      [[some 1, some 2, some 3], [some 4, some 5, some 6], [some 7, some 8, some 9]]
      [[some 1, some 1, some 2], [some 1, some 2, some 2], [some 0, some 0, some 0]]
      none defaultStats none).toOption =
    some [[("mean", some 8), ("max", some 9), ("min", some 7), ("median", some 8),
          ("sum", some 24), ("std", some (ratSqrt (2/3))), ("count", some 3)],
         [("mean", some (7/3)), ("max", some 4), ("min", some 1), ("median", some 2),
          ("sum", some 7), ("std", some (ratSqrt (14/9))), ("count", some 3)],
         [("mean", some (14/3)), ("max", some 6), ("min", some 3), ("median", some 5),
          ("sum", some 14), ("std", some (ratSqrt (14/9))), ("count", some 3)]] := by
  decide

set_option maxRecDepth 8000 in
example :
    ((fast_zonal_stats
      [[some 1, some 2, some 3], [some 4, some 5, some 6], [some 7, some 8, some 9]]
      [[some 1, some 1, some 2], [some 5, some 2, some 2], [some 0, some 0, some 0]]
      none defaultStats none).toOption.map (fun out =>
        (out.length, out.getD 3 [], out.getD 4 []))) =
    some (6,
      [("mean", none), ("max", none), ("min", none), ("median", none),
       ("sum", some 0), ("std", none), ("count", some 0)],
      [("mean", none), ("max", none), ("min", none), ("median", none),
       ("sum", some 0), ("std", none), ("count", some 0)]) := by
  decide

/-- `dateLt` and `dateLe` are complementary (totality of the
lexicographic date order). -/
theorem dateLt_eq_not_dateLe (a b : Date) : dateLt a b = !(dateLe b a) := by
  rcases a with ⟨ay, am, ad⟩
  rcases b with ⟨b1, bm, bd⟩
  cases hab : dateLt ⟨ay, am, ad⟩ ⟨b1, bm, bd⟩ <;>
    cases hba : dateLe ⟨b1, bm, bd⟩ ⟨ay, am, ad⟩ <;>
      simp_all [dateLt, dateLe, Date.mk.injEq] <;> omega

/-- The tail of the validator accepts exactly when none of the std,
count, adm_level, iso3 and temporal rules (in the code's form) is
violated. -/
theorem validateStdOn_ok_iff (now : Date) (iso3 : String) (r : StatsRecord) :
    (validateStdOn now iso3 r = .ok r ↔
      (stdViolation r || decide (r.count < 0) ||
        decide (¬ (0 ≤ r.adm_level ∧ r.adm_level ≤ 4)) || !(validIso3 iso3) ||
        temporalViolation relativedelta_months now r) = false) := by
  unfold validateStdOn stdViolation temporalViolation
  rcases hstd : r.std with _ | sd <;>
    rcases hiss : r.issued_date with _ | iss <;>
      rcases hlt : r.leadtime with _ | lt <;>
        simp <;> split_ifs <;> simp_all [dateLt_eq_not_dateLe]

/-- The tail of the validator returns its input record unchanged when it
accepts. -/
theorem validateStdOn_ok_eq (now : Date) (iso3 : String) (r r' : StatsRecord)
    (h : validateStdOn now iso3 r = .ok r') : r' = r := by
  unfold validateStdOn at h
  rcases hstd : r.std with _ | sd <;>
    rcases hiss : r.issued_date with _ | iss <;>
      rcases hlt : r.leadtime with _ | lt <;>
        simp only [hstd, hiss, hlt] at h <;> split_ifs at h <;>
          simp_all only [Except.ok.injEq, reduceCtorEq]

/-- The median check accepts exactly when neither the median rule nor
any later rule is violated (given non-NaN min and max). -/
theorem validateMedianOn_ok_iff (now : Date) (iso3 : String) (r : StatsRecord) (mn mx : Rat)
    (hmin : r.min = some mn) (hmax : r.max = some mx) :
    (validateMedianOn now iso3 r mn mx = .ok r ↔
      (medianViolation r || stdViolation r || decide (r.count < 0) ||
        decide (¬ (0 ≤ r.adm_level ∧ r.adm_level ≤ 4)) || !(validIso3 iso3) ||
        temporalViolation relativedelta_months now r) = false) := by
  unfold validateMedianOn medianViolation
  rcases hmed : r.median with _ | md <;>
    simp_all [validateStdOn_ok_iff] <;> split_ifs <;>
      simp_all [validateStdOn_ok_iff]

/-- The median check returns its input record unchanged when it
accepts. -/
theorem validateMedianOn_ok_eq (now : Date) (iso3 : String) (r r' : StatsRecord) (mn mx : Rat)
    (h : validateMedianOn now iso3 r mn mx = .ok r') : r' = r := by
  unfold validateMedianOn at h
  rcases hmed : r.median with _ | md <;> simp only [hmed] at h
  · exact validateStdOn_ok_eq now iso3 r r' h
  · split_ifs at h
    exact validateStdOn_ok_eq now iso3 r r' h

/-- C3 (amended): `validate_stats` accepts a record — returning it
unchanged — precisely when none of the stated rules is violated, with
NaN operands skipping the corresponding checks, where the
leadtime/month rule is the one the source checks: the leadtime must
equal the months *component* of the calendar difference
(`relativedelta(valid_date, issued_date).months`, the whole-month
difference reduced modulo whole years) rather than the whole-month
difference itself.  In particular a record with min=5, max=3 fails with
the min/max-ordering error (for every clock and iso3), and a record
with leadtime=8 fails the 0-6 leadtime bound check. -/
theorem validator_accepts_iff_code_rules (now : Date) (iso3 : String) (r : StatsRecord) :
    (validate_stats now iso3 r = .ok r ↔ violatesCodeRules now iso3 r = false) ∧
    (∀ r', validate_stats now iso3 r = .ok r' → r' = r) ∧
    validate_stats now iso3
      { min := some 5, max := some 3, mean := some 4, median := some 4, std := some 1,
        count := 1, adm_level := 1, valid_date := ⟨2024, 1, 1⟩, issued_date := none,
        leadtime := none } = .error "Validation error: min is not <= max" ∧
    validate_stats ⟨2026, 1, 1⟩ "TST"
      { min := some 1, max := some 1, mean := some 1, median := some 1, std := some 0,
        count := 1, adm_level := 1, valid_date := ⟨2021, 8, 1⟩,
        issued_date := some ⟨2021, 1, 1⟩, leadtime := some 8 } =
      .error "Validation error: leadtime is not between 0 and 6" := by
  refine ⟨?_, ?_, by norm_num [validate_stats], by decide⟩
  · unfold validate_stats violatesCodeRules minMaxViolation meanViolation medianViolation
    rcases hmin : r.min with _ | mn <;> rcases hmax : r.max with _ | mx
    · simpa [hmin, hmax] using validateStdOn_ok_iff now iso3 r
    · simpa [hmin, hmax] using validateStdOn_ok_iff now iso3 r
    · simpa [hmin, hmax] using validateStdOn_ok_iff now iso3 r
    · by_cases hmm : mn ≤ mx
      · rcases hmean : r.mean with _ | me
        · have := validateMedianOn_ok_iff now iso3 r mn mx hmin hmax
          unfold medianViolation at this
          simp_all
        · by_cases hme : mn ≤ me ∧ me ≤ mx
          · have := validateMedianOn_ok_iff now iso3 r mn mx hmin hmax
            unfold medianViolation at this
            simp_all
          · simp_all
      · simp_all
  · intro r' h
    unfold validate_stats at h
    rcases hmin : r.min with _ | mn <;> rcases hmax : r.max with _ | mx <;>
      simp only [hmin, hmax] at h
    · exact validateStdOn_ok_eq now iso3 r r' h
    · exact validateStdOn_ok_eq now iso3 r r' h
    · exact validateStdOn_ok_eq now iso3 r r' h
    · split_ifs at h
      rcases hmean : r.mean with _ | me <;> simp only [hmean] at h
      · exact validateMedianOn_ok_eq now iso3 r r' mn mx h
      · split_ifs at h
        exact validateMedianOn_ok_eq now iso3 r r' mn mx h

theorem validator_accepts_iff_code_rules_witness :
    validate_stats ⟨2026, 1, 1⟩ "TST" goodRecord = .ok goodRecord :=
  (validator_accepts_iff_code_rules ⟨2026, 1, 1⟩ "TST" goodRecord).1.mpr (by decide)

/-- C3 counterexample: the claimed rule set is not equivalent to the
source's checks.  `yearApartRecord` has a whole-month difference of 12
between valid and issued dates with leadtime 0, violating the claimed
"leadtime equals the whole-month difference" rule, yet `validate_stats`
accepts it: `relativedelta(valid, issued).months` is 0 (the 12 months
collapse into one whole year), which matches the leadtime. -/
theorem validator_spec_rules_counterexample :
    validate_stats ⟨2026, 1, 1⟩ "TST" yearApartRecord = .ok yearApartRecord ∧
    violatesSpecRules ⟨2026, 1, 1⟩ "TST" yearApartRecord = true := by
  refine ⟨by decide, by decide⟩

/-- C5: on the reference fixture the Batch Runner yields, for day 1,
LEFT mean 10 count 1, TOP all-NaN count 0, RIGHT mean 9 count 2, and for
day 2 the same values shifted by +16; and with the uncovered polygon
last in input order the rows and the NaN placement track positional
polygon index (pcodes positionally matched to label indices), not
raster-label order. -/
theorem runner_reference_fixture :
    (fast_zonal_stats_runner (fun _ _ _ => adminFix1) id ⟨2026, 1, 1⟩
        (.d3 [(⟨2021, 1, 1⟩, srcDay1), (⟨2021, 1, 2⟩, srcDay2)])
        gdfFix1 1 "TST" defaultStats 4 4).1 =
      .ok
        [obsRow (some 10) (some 10) (some 10) (some 10) (some 10) (some 0) (some 1) ⟨2021, 1, 1⟩ "LEFT",
         nanRow ⟨2021, 1, 1⟩ "TOP",
         obsRow (some 9) (some 11) (some 7) (some 9) (some 18) (some 2) (some 2) ⟨2021, 1, 1⟩ "RIGHT",
         obsRow (some 26) (some 26) (some 26) (some 26) (some 26) (some 0) (some 1) ⟨2021, 1, 2⟩ "LEFT",
         nanRow ⟨2021, 1, 2⟩ "TOP",
         obsRow (some 25) (some 27) (some 23) (some 25) (some 50) (some 2) (some 2) ⟨2021, 1, 2⟩ "RIGHT"] ∧
    (fast_zonal_stats_runner (fun _ _ _ => adminFix2) id ⟨2026, 1, 1⟩
        (.d3 [(⟨2021, 1, 1⟩, srcDay1), (⟨2021, 1, 2⟩, srcDay2)])
        gdfFix2 1 "TST" defaultStats 4 4).1 =
      .ok
        [obsRow (some 10) (some 10) (some 10) (some 10) (some 10) (some 0) (some 1) ⟨2021, 1, 1⟩ "LEFT",
         obsRow (some 9) (some 11) (some 7) (some 9) (some 18) (some 2) (some 2) ⟨2021, 1, 1⟩ "RIGHT",
         nanRow ⟨2021, 1, 1⟩ "TOP",
         obsRow (some 26) (some 26) (some 26) (some 26) (some 26) (some 0) (some 1) ⟨2021, 1, 2⟩ "LEFT",
         obsRow (some 25) (some 27) (some 23) (some 25) (some 50) (some 2) (some 2) ⟨2021, 1, 2⟩ "RIGHT",
         nanRow ⟨2021, 1, 2⟩ "TOP"] := by
  exact ⟨by decide, by decide⟩

/-- Successful `mapM` over `Except`: every output element is the image
of some input element. -/
theorem mapM_ok_mem {α β : Type} (f : α → Except String β) :
    ∀ (l : List α) (l' : List β), l.mapM f = .ok l' → ∀ b ∈ l', ∃ a ∈ l, f a = .ok b := by
  intro l
  induction l with
  | nil =>
    intro l' h b hb
    simp only [List.mapM_nil, pure, Except.pure, Except.ok.injEq] at h
    subst h
    simp at hb
  | cons x xs ih =>
    intro l' h b hb
    rw [List.mapM_cons] at h
    cases hfx : f x <;> cases hxs : xs.mapM f <;>
      simp only [hfx, hxs, Bind.bind, Except.bind, pure, Except.pure,
        Except.ok.injEq, reduceCtorEq] at h
    case ok.ok y ys =>
      subst h
      rcases List.mem_cons.mp hb with hb | hb
      · exact ⟨x, List.mem_cons_self x xs, hb ▸ hfx⟩
      · rcases ih ys hxs b hb with ⟨a, ha, hfa⟩
        exact ⟨a, List.mem_cons_of_mem x ha, hfa⟩

/-- Successful `mapM` over `Except` preserves length. -/
theorem mapM_ok_length {α β : Type} (f : α → Except String β) :
    ∀ (l : List α) (l' : List β), l.mapM f = .ok l' → l'.length = l.length := by
  intro l
  induction l with
  | nil =>
    intro l' h
    simp only [List.mapM_nil, pure, Except.pure, Except.ok.injEq] at h
    subst h
    rfl
  | cons x xs ih =>
    intro l' h
    rw [List.mapM_cons] at h
    cases hfx : f x <;> cases hxs : xs.mapM f <;>
      simp only [hfx, hxs, Bind.bind, Except.bind, pure, Except.pure,
        Except.ok.injEq, reduceCtorEq] at h
    case ok.ok y ys =>
      subst h
      simp [ih ys hxs]

/-- Adding `k` relativedelta-months shifts the month count by exactly
`k`. -/
theorem totalMonths_add_months (d : Date) (k : Int) :
    totalMonths (add_months_to_date d k) = totalMonths d + k := by
  simp only [add_months_to_date, totalMonths]
  omega

/-- The month produced by month arithmetic is in 1..12. -/
theorem add_months_month_bounds (d : Date) (k : Int) :
    1 ≤ (add_months_to_date d k).month ∧ (add_months_to_date d k).month ≤ 12 := by
  simp only [add_months_to_date]
  omega

/-- Adding zero months to a well-formed date is the identity. -/
theorem add_months_zero (d : Date) (hwf : d.WF) : add_months_to_date d 0 = d := by
  rcases d with ⟨y, m, dy⟩
  obtain ⟨h1, h2, h3, h4⟩ := hwf
  dsimp only [Date.WF] at h1 h2 h3 h4
  have hy : (totalMonths ⟨y, m, dy⟩ + 0) / 12 = y := by
    dsimp only [totalMonths]
    omega
  have hm : (totalMonths ⟨y, m, dy⟩ + 0) % 12 + 1 = m := by
    dsimp only [totalMonths]
    omega
  simp only [add_months_to_date, hy, hm, Date.mk.injEq, true_and]
  rw [min_def]
  split <;> omega

/-- Month arithmetic clamps the day downward: the resulting day never
exceeds the starting day. -/
theorem add_months_day_le (d : Date) (k : Int) :
    (add_months_to_date d k).day ≤ d.day := by
  simp only [add_months_to_date]
  exact min_le_left _ _

/-- Subtracting a nonnegative number of months never moves a
well-formed date later. -/
theorem add_months_neg_le (d : Date) (hwf : d.WF) (v : Int) (h0 : 0 ≤ v) :
    dateLe (add_months_to_date d (-v)) d = true := by
  rcases eq_or_lt_of_le h0 with h | hpos
  · subst h
    simp only [neg_zero, add_months_zero d hwf, dateLe, beq_self_eq_true, Bool.or_true]
  · have e1 := totalMonths_add_months d (-v)
    have e2 := add_months_month_bounds d (-v)
    obtain ⟨h1, h2, h3, h4⟩ := hwf
    unfold totalMonths at e1
    have hlt : dateLt (add_months_to_date d (-v)) d = true := by
      simp only [dateLt, Bool.or_eq_true, Bool.and_eq_true, decide_eq_true_eq, beq_iff_eq]
      omega
    simp only [dateLe, hlt, Bool.true_or]

/-- The months component measured back from a date to that date minus
`v` months (for `0 ≤ v ≤ 6`) recovers `v`: the round trip between month
subtraction and `relativedelta`'s month measurement. -/
theorem relativedelta_months_roundtrip (d : Date) (hwf : d.WF) (v : Int)
    (h0 : 0 ≤ v) (h6 : v ≤ 6) :
    relativedelta_months d (add_months_to_date d (-v)) = v := by
  have e1 := totalMonths_add_months d (-v)
  have hraw : totalMonths d - totalMonths (add_months_to_date d (-v)) = v := by omega
  have e2 := totalMonths_add_months (add_months_to_date d (-v)) v
  have eb2 := add_months_month_bounds (add_months_to_date d (-v)) v
  obtain ⟨h1, h2, h3, h4⟩ := hwf
  have hyearmonth :
      (add_months_to_date (add_months_to_date d (-v)) v).year = d.year ∧
        (add_months_to_date (add_months_to_date d (-v)) v).month = d.month := by
    unfold totalMonths at e1 e2
    constructor <;> omega
  have hday : (add_months_to_date (add_months_to_date d (-v)) v).day ≤ d.day :=
    le_trans (add_months_day_le _ v) (add_months_day_le d (-v))
  have hlt : dateLt d (add_months_to_date (add_months_to_date d (-v)) v) = false := by
    simp only [dateLt, Bool.or_eq_false_iff, Bool.and_eq_false_iff,
      decide_eq_false_iff_not, beq_eq_false_iff_ne, ne_eq, Bool.or_eq_true,
      Bool.and_eq_true, decide_eq_true_eq, beq_iff_eq]
    omega
  simp only [relativedelta_months]
  rw [hraw, hlt]
  simp only [Bool.false_eq_true, if_false]
  omega

/-- C7: every record emitted for a `leadtime` fourth-dimension slice by
the Batch Runner's per-slice worker carries
`issued_date = valid_date - leadtime` calendar months (the runner's
line `result["issued_date"] = add_months_to_date(date, -val)`), and for
a well-formed date and a leadtime between 0 and 6 this derived pair
satisfies the validator's temporal rules: `issued_date ≤ valid_date`,
and the `relativedelta` month measurement between them recovers the
leadtime — the round trip between month subtraction and month-difference
measurement. -/
theorem forecast_issued_date_roundtrip
    (now : Date) (iso3 : String) (admin : Arr2) (adm_ids : List String)
    (adm_level : Int) (stats : List String) (date : Date) (v : Int) (sl : Arr2)
    (out : List OutRecord) (r : OutRecord)
    (hok : process_slice now iso3 admin adm_ids adm_level stats date
      (some ("leadtime", v)) sl = .ok out)
    (hr : r ∈ out) (hwf : date.WF) (h0 : 0 ≤ v) (h6 : v ≤ 6) :
    r.valid_date = date ∧
    r.issued_date = some (add_months_to_date date (-v)) ∧
    dateLe (add_months_to_date date (-v)) date = true ∧
    relativedelta_months date (add_months_to_date date (-v)) = v := by
  have hfields : r.valid_date = date ∧
      r.issued_date = some (add_months_to_date date (-v)) := by
    unfold process_slice at hok
    cases hfz : fast_zonal_stats sl admin (some adm_ids.length) stats none with
    | error e =>
      rw [hfz] at hok
      cases hok
    | ok results =>
      rw [hfz] at hok
      obtain ⟨p, hp, hatt⟩ :=
        mapM_ok_mem (attachRecord now iso3 adm_ids adm_level date (some ("leadtime", v)))
          results.enum out hok r hr
      unfold attachRecord at hatt
      cases hget : adm_ids.get? p.1 with
      | none =>
        rw [hget] at hatt
        cases hatt
      | some pc =>
        rw [hget] at hatt
        simp only [reduceIte] at hatt
        cases hts : toStatsRecord p.2 date (some (add_months_to_date date (-v)))
            (some v) adm_level with
        | error e =>
          rw [hts] at hatt
          cases hatt
        | ok sr =>
          rw [hts] at hatt
          dsimp only at hatt
          cases hval : validate_stats now iso3 sr with
          | error e =>
            rw [hval] at hatt
            cases hatt
          | ok sr2 =>
            rw [hval] at hatt
            dsimp only at hatt
            cases hatt
            exact ⟨rfl, rfl⟩
  exact ⟨hfields.1, hfields.2, add_months_neg_le date hwf v h0,
    relativedelta_months_roundtrip date hwf v h0 h6⟩

theorem forecast_issued_date_roundtrip_witness :
    leadtimeWitnessRecord.valid_date = ⟨2021, 2, 1⟩ ∧
    leadtimeWitnessRecord.issued_date = some (add_months_to_date ⟨2021, 2, 1⟩ (-1)) ∧
    dateLe (add_months_to_date ⟨2021, 2, 1⟩ (-1)) ⟨2021, 2, 1⟩ = true ∧
    relativedelta_months ⟨2021, 2, 1⟩ (add_months_to_date ⟨2021, 2, 1⟩ (-1)) = 1 :=
  forecast_issued_date_roundtrip ⟨2026, 1, 1⟩ "TST" [[some 0]] ["AAA"] 1 defaultStats
    ⟨2021, 2, 1⟩ 1 [[some 5]] [leadtimeWitnessRecord] leadtimeWitnessRecord
    (by decide) (by decide) (by decide) (by decide) (by decide)

/-- `insertAsc` never produces the empty list. -/
theorem insertAsc_ne_nil (q : Rat) (l : List Rat) : insertAsc q l ≠ [] := by
  cases l with
  | nil => simp [insertAsc]
  | cons x xs =>
    unfold insertAsc
    split <;> simp

/-- Membership through `insertAsc`. -/
theorem mem_insertAsc (a q : Rat) (l : List Rat) :
    a ∈ insertAsc q l ↔ a = q ∨ a ∈ l := by
  induction l with
  | nil => simp [insertAsc]
  | cons x xs ih =>
    unfold insertAsc
    split
    · simp
    · simp only [List.mem_cons, ih]
      tauto

/-- Sorting preserves membership. -/
theorem mem_sortAsc (a : Rat) (l : List Rat) : a ∈ sortAsc l ↔ a ∈ l := by
  induction l with
  | nil => simp [sortAsc]
  | cons x xs ih =>
    unfold sortAsc
    rw [mem_insertAsc]
    simp [ih]

/-- Sorting preserves nonemptiness. -/
theorem sortAsc_ne_nil (l : List Rat) (h : l ≠ []) : sortAsc l ≠ [] := by
  cases l with
  | nil => exact absurd rfl h
  | cons x xs => exact insertAsc_ne_nil x (sortAsc xs)

/-- Grouping preserves nonemptiness. -/
theorem groupCounts_ne_nil (l : List Rat) (h : l ≠ []) : groupCounts l ≠ [] := by
  cases l with
  | nil => exact absurd rfl h
  | cons x xs =>
    unfold groupCounts
    cases groupCounts xs with
    | nil => simp
    | cons p rest =>
      rcases p with ⟨y, c⟩
      dsimp only
      split <;> simp

/-- Every key of `groupCounts` is an element of the grouped list. -/
theorem groupCounts_key_mem (l : List Rat) :
    ∀ p ∈ groupCounts l, p.1 ∈ l := by
  induction l with
  | nil => simp [groupCounts]
  | cons x xs ih =>
    intro p hp
    unfold groupCounts at hp
    cases hgc : groupCounts xs with
    | nil =>
      rw [hgc] at hp
      simp only [List.mem_singleton] at hp
      subst hp
      simp
    | cons q rest =>
      rcases q with ⟨y, c⟩
      rw [hgc] at hp
      dsimp only at hp
      by_cases hxy : x == y
      · rw [if_pos hxy] at hp
        rcases List.mem_cons.mp hp with h | h
        · subst h
          dsimp only
          right
          have := ih ⟨y, c⟩ (by rw [hgc]; exact List.mem_cons_self _ _)
          exact this
        · exact List.mem_cons_of_mem x (ih p (by rw [hgc]; exact List.mem_cons_of_mem _ h))
      · rw [if_neg hxy] at hp
        rcases List.mem_cons.mp hp with h | h
        · subst h
          simp
        · exact List.mem_cons_of_mem x (ih p (by rw [hgc]; exact h))

/-- Every element of the grouped list appears as a key of
`groupCounts`. -/
theorem groupCounts_mem_key (l : List Rat) :
    ∀ a ∈ l, ∃ c, (a, c) ∈ groupCounts l := by
  induction l with
  | nil => simp
  | cons x xs ih =>
    intro a ha
    unfold groupCounts
    cases hgc : groupCounts xs with
    | nil =>
      rcases List.mem_cons.mp ha with h | h
      · subst h
        exact ⟨1, List.mem_singleton.mpr rfl⟩
      · rcases ih a h with ⟨c, hc⟩
        rw [hgc] at hc
        simp at hc
    | cons q rest =>
      rcases q with ⟨y, c⟩
      dsimp only
      rcases List.mem_cons.mp ha with h | h
      · subst h
        by_cases hxy : a == y
        · rw [if_pos hxy]
          refine ⟨c + 1, ?_⟩
          have : a = y := by simpa using hxy
          subst this
          exact List.mem_cons_self _ _
        · rw [if_neg hxy]
          exact ⟨1, List.mem_cons_self _ _⟩
      · rcases ih a h with ⟨c2, hc2⟩
        rw [hgc] at hc2
        by_cases hxy : x == y
        · rw [if_pos hxy]
          rcases List.mem_cons.mp hc2 with h2 | h2
          · rcases Prod.mk.injEq .. ▸ h2 with ⟨h3, h4⟩
            exact ⟨c + 1, by rw [h3]; exact List.mem_cons_self _ _⟩
          · exact ⟨c2, List.mem_cons_of_mem _ h2⟩
        · rw [if_neg hxy]
          exact ⟨c2, List.mem_cons_of_mem (x, 1) hc2⟩

/-- A left fold of `max` yields the start value or a list element. -/
theorem foldl_max_mem : ∀ (ys : List Rat) (x : Rat), ys.foldl max x ∈ x :: ys := by
  intro ys
  induction ys with
  | nil => intro x; simp
  | cons y ys ih =>
    intro x
    simp only [List.foldl_cons]
    rcases List.mem_cons.mp (ih (max x y)) with h | h
    · rcases max_choice x y with hc | hc
      · rw [List.mem_cons]
        exact .inl (h.trans hc)
      · rw [List.mem_cons, List.mem_cons]
        exact .inr (.inl (h.trans hc))
    · exact List.mem_cons_of_mem _ (List.mem_cons_of_mem _ h)

/-- A left fold of `max` bounds the start value and every element. -/
theorem foldl_max_le : ∀ (ys : List Rat) (x : Rat), ∀ z ∈ x :: ys, z ≤ ys.foldl max x := by
  intro ys
  induction ys with
  | nil =>
    intro x z hz
    simp only [List.mem_singleton] at hz
    simp [hz]
  | cons y ys ih =>
    intro x z hz
    simp only [List.foldl_cons]
    have hstart : max x y ≤ ys.foldl max (max x y) :=
      ih (max x y) (max x y) (List.mem_cons_self _ _)
    rcases List.mem_cons.mp hz with h | h
    · subst h
      exact le_trans (le_max_left z y) hstart
    · rcases List.mem_cons.mp h with h2 | h2
      · subst h2
        exact le_trans (le_max_right x z) hstart
      · exact ih (max x y) z (List.mem_cons_of_mem _ h2)

/-- `listMaxQ` returns an element that bounds the list from above. -/
theorem listMaxQ_spec (l : List Rat) (m : Rat) (h : listMaxQ l = some m) :
    m ∈ l ∧ ∀ x ∈ l, x ≤ m := by
  cases l with
  | nil => simp [listMaxQ] at h
  | cons x xs =>
    simp only [listMaxQ, Option.some.injEq] at h
    subst h
    exact ⟨foldl_max_mem xs x, foldl_max_le xs x⟩

/-- `int()` of a float holding a natural number is that number. -/
theorem pyInt_natCast (k : Nat) : pyInt (k : Rat) = k := by
  unfold pyInt
  rw [Rat.num_natCast, Rat.den_natCast]
  simp

/-- The scatter loop succeeds and preserves the number of rows when
every label is a natural number below the row count. -/
theorem scatterRows_ok (srcF admF : List Val) :
    ∀ (gc : List (Rat × Nat)) (rows : List (List Val)),
      (∀ x ∈ gc, ∃ k : Nat, x.1 = (k : Rat) ∧ k < rows.length) →
      ∃ rows2, scatterRows srcF admF gc rows = .ok rows2 ∧ rows2.length = rows.length := by
  intro gc
  induction gc with
  | nil =>
    intro rows _
    exact ⟨rows, rfl, rfl⟩
  | cons x rest ih =>
    intro rows hb
    rcases hb x (List.mem_cons_self _ _) with ⟨k, hk, hklt⟩
    rcases x with ⟨g, cnt⟩
    dsimp only at hk hklt
    subst hk
    simp only [scatterRows]
    rw [pyInt_natCast k]
    have hnneg : ¬ ((k : Int) < 0) := by omega
    rw [if_neg hnneg]
    have hcond : (0 : Int) ≤ (k : Int) ∧ (k : Int) < rows.length := by
      constructor <;> omega
    rw [if_pos hcond]
    have hlen : (rows.set (Int.toNat k)
        (writePrefix (rows.getD (Int.toNat k) []) (selectWhere srcF admF k))).length
        = rows.length := List.length_set _ _ _
    rcases ih (rows.set (Int.toNat k)
        (writePrefix (rows.getD (Int.toNat k) []) (selectWhere srcF admF k)))
        (by
          intro y hy
          rcases hb y (List.mem_cons_of_mem _ hy) with ⟨k2, hk2, hk2lt⟩
          exact ⟨k2, hk2, by rw [hlen]; exact hk2lt⟩) with ⟨rows2, hsc, hlen2⟩
    exact ⟨rows2, hsc, by rw [hlen2, hlen]⟩

/-- The scatter loop leaves rows whose index is hit by no label
unchanged. -/
theorem scatterRows_untouched (srcF admF : List Val) :
    ∀ (gc : List (Rat × Nat)) (rows rows2 : List (List Val)) (i : Nat),
      scatterRows srcF admF gc rows = .ok rows2 →
      (∀ x ∈ gc, ∃ k : Nat, x.1 = (k : Rat) ∧ k ≠ i) →
      rows2[i]? = rows[i]? := by
  intro gc
  induction gc with
  | nil =>
    intro rows rows2 i h _
    unfold scatterRows at h
    cases h
    rfl
  | cons x rest ih =>
    intro rows rows2 i h hb
    rcases hb x (List.mem_cons_self _ _) with ⟨k, hk, hki⟩
    rcases x with ⟨g, cnt⟩
    dsimp only at hk hki
    subst hk
    simp only [scatterRows] at h
    rw [pyInt_natCast k] at h
    have hnneg : ¬ ((k : Int) < 0) := by omega
    rw [if_neg hnneg] at h
    by_cases hcond : (0 : Int) ≤ (k : Int) ∧ (k : Int) < rows.length
    · rw [if_pos hcond] at h
      have := ih _ rows2 i h (fun y hy => hb y (List.mem_cons_of_mem _ hy))
      rw [this]
      exact List.getElem?_set_ne (by omega)
    · rw [if_neg hcond] at h
      cases h

/-- Membership in the non-NaN projection. -/
theorem mem_nonNaN (l : List Val) (q : Rat) : q ∈ nonNaN l ↔ some q ∈ l := by
  unfold nonNaN
  rw [List.mem_filterMap]
  constructor
  · rintro ⟨a, ha, hq⟩
    cases a with
    | none => cases hq
    | some b =>
      simp only [id] at hq
      obtain rfl : b = q := by injection hq
      exact ha
  · intro h
    exact ⟨some q, h, rfl⟩

/-- Core success lemma for the Zonal Reducer: with the default NaN
fill, a supplied nonzero expected count `n`, same-shape rasters and
every label a natural number below `n`, `fast_zonal_stats` succeeds;
its output applies the requested statistics to a dense row array with
exactly `n` rows, in which any index whose label occurs nowhere in the
label raster retains its initial all-NaN row. -/
theorem fast_zonal_stats_ok (src admin : Arr2) (n : Nat) (stats : List String)
    (s : Nat × Nat)
    (hs1 : rectShape src = some s) (hs2 : rectShape admin = some s)
    (hn : n ≠ 0)
    (hlab : ∀ v ∈ admin.flatten, v = none ∨ ∃ k : Nat, v = some (k : Rat) ∧ k < n)
    (hne : ∃ v ∈ admin.flatten, v ≠ none) :
    ∃ (rows : List (List Val)) (largest : Nat),
      fast_zonal_stats src admin (some n) stats none =
        .ok (rows.map (fun row =>
          stats.filterMap (fun st => (statFns st).map (fun f => (st, f row))))) ∧
      rows.length = n ∧
      (∀ i : Nat, (∀ v ∈ admin.flatten, v ≠ some (i : Rat)) → i < n →
        rows[i]? = some (List.replicate largest none)) := by
  have hxs : nonNaN admin.flatten ≠ [] := by
    rcases hne with ⟨v, hv, hvne⟩
    cases v with
    | none => exact absurd rfl hvne
    | some q =>
      intro hnil
      have : q ∈ nonNaN admin.flatten := (mem_nonNaN _ q).mpr hv
      rw [hnil] at this
      cases this
  have hgcne : uniqueCounts (nonNaN admin.flatten) ≠ [] :=
    groupCounts_ne_nil _ (sortAsc_ne_nil _ hxs)
  have hkeys : ∀ p ∈ uniqueCounts (nonNaN admin.flatten),
      ∃ k : Nat, p.1 = (k : Rat) ∧ k < n := by
    intro p hp
    have h1 : p.1 ∈ sortAsc (nonNaN admin.flatten) := groupCounts_key_mem _ p hp
    have h2 : p.1 ∈ nonNaN admin.flatten := (mem_sortAsc _ _).mp h1
    have h3 : some p.1 ∈ admin.flatten := (mem_nonNaN _ _).mp h2
    rcases hlab _ h3 with h | ⟨k, hk, hklt⟩
    · cases h
    · exact ⟨k, by injection hk, hklt⟩
  cases hgc : uniqueCounts (nonNaN admin.flatten) with
  | nil => exact absurd hgc hgcne
  | cons g0 rest =>
    have hfill : pyEq (some g0.1) none = false := by simp [pyEq]
    rcases scatterRows_ok src.flatten admin.flatten (g0 :: rest)
        (List.replicate n (List.replicate ((rest.map Prod.snd).foldl max g0.2) none))
        (by
          intro x hx
          rcases hkeys x (by rw [hgc]; exact hx) with ⟨k, hk, hklt⟩
          exact ⟨k, hk, by simpa using hklt⟩) with ⟨rows, hsc, hlen⟩
    refine ⟨rows, (rest.map Prod.snd).foldl max g0.2, ?_, by simpa using hlen, ?_⟩
    · unfold fast_zonal_stats
      rw [hs1, hs2]
      dsimp only
      rw [if_pos rfl, hgc]
      dsimp only
      rw [if_neg (by rw [hfill]; simp)]
      dsimp only [listMaxNat, listMaxQ, List.map_cons]
      rw [if_pos hn]
      rw [hsc]
    · intro i hi hilt
      have huntouched := scatterRows_untouched src.flatten admin.flatten (g0 :: rest)
          _ rows i hsc
          (by
            intro x hx
            rcases hkeys x (by rw [hgc]; exact hx) with ⟨k, hk, hklt⟩
            refine ⟨k, hk, ?_⟩
            intro hki
            subst hki
            have h1 : x.1 ∈ sortAsc (nonNaN admin.flatten) :=
              groupCounts_key_mem _ x (by rw [← hgc] at hx; exact hx)
            have h2 : some x.1 ∈ admin.flatten :=
              (mem_nonNaN _ _).mp ((mem_sortAsc _ _).mp h1)
            rw [hk] at h2
            exact hi _ h2 rfl)
      rw [huntouched]
      rw [List.getElem?_replicate]
      simp [hilt]

/-- An all-NaN row has no non-NaN entries. -/
theorem nonNaN_replicate_none (L : Nat) : nonNaN (List.replicate L none) = [] := by
  rw [nonNaN, List.filterMap_eq_nil_iff]
  intro a ha
  rw [List.eq_of_mem_replicate ha]
  rfl

/-- The statistics dictionary computed for an all-NaN row with the
default statistics list: NaN for the averaging statistics, 0 for sum
and count. -/
theorem defaultStats_on_all_nan_row (L : Nat) :
    defaultStats.filterMap
        (fun st => (statFns st).map (fun f => (st, f (List.replicate L none)))) =
      [("mean", none), ("max", none), ("min", none), ("median", none),
       ("sum", some 0), ("std", none), ("count", some 0)] := by
  have h := nonNaN_replicate_none L
  simp only [defaultStats, statFns, List.filterMap_cons, List.filterMap_nil]
  simp [nanmean, nanmax, nanmin, nanmedian, nansum, nanstd, nancount,
    listMaxQ, listMinQ, sortAsc, h]

/-- Success lemma for the Zonal Reducer without a supplied expected
count: with the default NaN fill, same-shape rasters, every label a
natural number, and `K` the largest label actually present, the output
has exactly `K + 1` entries (`int(geom_ids.max()) + 1`). -/
theorem fast_zonal_stats_ok_nocount (src admin : Arr2) (stats : List String)
    (s : Nat × Nat) (K : Nat)
    (hs1 : rectShape src = some s) (hs2 : rectShape admin = some s)
    (hlab : ∀ v ∈ admin.flatten, v = none ∨ ∃ k : Nat, v = some (k : Rat) ∧ k ≤ K)
    (hK : some (K : Rat) ∈ admin.flatten) :
    ∃ out, fast_zonal_stats src admin none stats none = .ok out ∧
      out.length = K + 1 := by
  have hkeys : ∀ p ∈ uniqueCounts (nonNaN admin.flatten),
      ∃ k : Nat, p.1 = (k : Rat) ∧ k ≤ K := by
    intro p hp
    have h2 : p.1 ∈ nonNaN admin.flatten :=
      (mem_sortAsc _ _).mp (groupCounts_key_mem _ p hp)
    rcases hlab _ ((mem_nonNaN _ _).mp h2) with h | ⟨k, hk, hkle⟩
    · cases h
    · exact ⟨k, by injection hk, hkle⟩
  have hKmem : (K : Rat) ∈ nonNaN admin.flatten := (mem_nonNaN _ _).mpr hK
  cases hgc : uniqueCounts (nonNaN admin.flatten) with
  | nil =>
    rcases groupCounts_mem_key (sortAsc (nonNaN admin.flatten)) (K : Rat)
        ((mem_sortAsc _ _).mpr hKmem) with ⟨c, hc⟩
    rw [show groupCounts (sortAsc (nonNaN admin.flatten)) = uniqueCounts (nonNaN admin.flatten) from rfl, hgc] at hc
    cases hc
  | cons g0 rest =>
    have hfill : pyEq (some g0.1) none = false := by simp [pyEq]
    rcases hmaxeq : listMaxQ (List.map Prod.fst (g0 :: rest)) with _ | gmax
    · simp [listMaxQ] at hmaxeq
    · have hgmax := listMaxQ_spec _ _ hmaxeq
      rcases List.mem_map.mp hgmax.1 with ⟨pm, hpm, hpm2⟩
      rcases hkeys pm (by rw [hgc]; exact hpm) with ⟨km, hkm, hkmle⟩
      have hgmax_nat : gmax = (km : Rat) := by rw [← hpm2, hkm]
      have hKkey : (K : Rat) ≤ gmax := by
        rcases groupCounts_mem_key (sortAsc (nonNaN admin.flatten)) (K : Rat)
            ((mem_sortAsc _ _).mpr hKmem) with ⟨c, hc⟩
        have : ((K : Rat), c).1 ∈ List.map Prod.fst (g0 :: rest) := by
          rw [← hgc]
          exact List.mem_map_of_mem Prod.fst hc
        exact hgmax.2 _ this
      have hkmK : km = K := by
        have h1 : km ≤ K := hkmle
        have h2 : K ≤ km := by
          rw [hgmax_nat] at hKkey
          exact_mod_cast hKkey
        omega
      subst hkmK
      have hnf : (pyInt gmax + 1).toNat = km + 1 := by
        rw [hgmax_nat, pyInt_natCast]
        omega
      rcases scatterRows_ok src.flatten admin.flatten (g0 :: rest)
          (List.replicate (km + 1)
            (List.replicate ((rest.map Prod.snd).foldl max g0.2) none))
          (by
            intro x hx
            rcases hkeys x (by rw [hgc]; exact hx) with ⟨k, hk, hkle⟩
            refine ⟨k, hk, ?_⟩
            simp only [List.length_replicate]
            omega) with ⟨rows, hsc, hlen⟩
      refine ⟨rows.map (fun row =>
          stats.filterMap (fun st => (statFns st).map (fun f => (st, f row)))), ?_, ?_⟩
      · unfold fast_zonal_stats
        rw [hs1, hs2]
        dsimp only
        rw [if_pos rfl, hgc]
        dsimp only
        rw [if_neg (by rw [hfill]; simp)]
        dsimp only [listMaxNat, List.map_cons]
        rw [show listMaxQ (Prod.fst g0 :: List.map Prod.fst rest) = some gmax from by
          rw [← List.map_cons]; exact hmaxeq]
        dsimp only
        rw [hnf, hsc]
      · simp only [List.length_map]
        rw [hlen]
        simp

/-- C1 (amended): the Zonal Reducer's output row count is the
explicitly supplied expected polygon count when one is supplied
(nonzero) — exactly `n` entries, never fewer, even if some labels in
`0..n-1` never appear in the raster — under the precondition that every
observed label is below that count: a label at or beyond the supplied
count makes the scatter step raise an IndexError instead of enlarging
the output.  Only when no count is supplied is the row count one plus
the maximum observed label. -/
theorem zonal_reducer_row_count :
    (∀ (src admin : Arr2) (n : Nat) (stats : List String) (s : Nat × Nat),
      rectShape src = some s → rectShape admin = some s → n ≠ 0 →
      (∀ v ∈ admin.flatten, v = none ∨ ∃ k : Nat, v = some (k : Rat) ∧ k < n) →
      (∃ v ∈ admin.flatten, v ≠ none) →
      ∃ out, fast_zonal_stats src admin (some n) stats none = .ok out ∧
        out.length = n) ∧
    (∀ (src admin : Arr2) (stats : List String) (s : Nat × Nat) (K : Nat),
      rectShape src = some s → rectShape admin = some s →
      (∀ v ∈ admin.flatten, v = none ∨ ∃ k : Nat, v = some (k : Rat) ∧ k ≤ K) →
      some (K : Rat) ∈ admin.flatten →
      ∃ out, fast_zonal_stats src admin none stats none = .ok out ∧
        out.length = K + 1) ∧
    fast_zonal_stats [[some 5, some 7]] [[some 0, some 2]] (some 2) defaultStats none =
      .error "IndexError: index is out of bounds for axis 0" := by
  refine ⟨?_, ?_, by decide⟩
  · intro src admin n stats s hs1 hs2 hn hlab hne
    rcases fast_zonal_stats_ok src admin n stats s hs1 hs2 hn hlab hne with
      ⟨rows, largest, hok, hlen, _⟩
    exact ⟨_, hok, by simpa using hlen⟩
  · intro src admin stats s K hs1 hs2 hlab hK
    exact fast_zonal_stats_ok_nocount src admin stats s K hs1 hs2 hlab hK

theorem zonal_reducer_row_count_witness :
    (∃ out, fast_zonal_stats [[some 5, some 7]] [[some 0, none]] (some 3) defaultStats none =
        .ok out ∧ out.length = 3) ∧
    (∃ out, fast_zonal_stats [[some 5, some 7]] [[some 0, some 2]] none defaultStats none =
        .ok out ∧ out.length = 3) := by
  constructor
  · exact zonal_reducer_row_count.1 [[some 5, some 7]] [[some 0, none]] 3 defaultStats
      (1, 2) (by decide) (by decide) (by decide)
      (by
        intro v hv
        fin_cases hv
        · exact Or.inr ⟨0, by norm_num⟩
        · exact Or.inl rfl)
      ⟨some 0, by decide, by decide⟩
  · exact zonal_reducer_row_count.2.1 [[some 5, some 7]] [[some 0, some 2]] defaultStats
      (1, 2) 2 (by decide) (by decide)
      (by
        intro v hv
        fin_cases hv
        · exact Or.inr ⟨0, by norm_num⟩
        · exact Or.inr ⟨2, by norm_num⟩)
      (by
        have : ((2 : Nat) : Rat) = (2 : Rat) := by norm_num
        rw [this]
        decide)

/-- C1 counterexample: with a supplied expected count of 2 and an
observed label 2 (so "one plus the maximum label observed" is 3, the
larger of the two), the code does not return 3 entries: the supplied
count alone fixes the row array at 2 rows and the scatter of label 2
raises an IndexError. -/
theorem zonal_reducer_larger_of_counterexample :
    fast_zonal_stats [[some 5, some 7]] [[some 0, some 2]] (some 2) defaultStats none =
      .error "IndexError: index is out of bounds for axis 0" := by
  decide

/-- C2: for every polygon index whose label occurs nowhere in the label
raster, the Zonal Reducer returns — as normal output, not an error —
a record with count 0 and sum 0, and NaN for mean, median, min, max and
std (the statistics computed from its all-NaN working row). -/
theorem zonal_reducer_empty_polygon (src admin : Arr2) (n : Nat) (s : Nat × Nat) (i : Nat)
    (hs1 : rectShape src = some s) (hs2 : rectShape admin = some s) (hn : n ≠ 0)
    (hlab : ∀ v ∈ admin.flatten, v = none ∨ ∃ k : Nat, v = some (k : Rat) ∧ k < n)
    (hne : ∃ v ∈ admin.flatten, v ≠ none)
    (hi : ∀ v ∈ admin.flatten, v ≠ some (i : Rat)) (hin : i < n) :
    ∃ out, fast_zonal_stats src admin (some n) defaultStats none = .ok out ∧
      out[i]? = some [("mean", none), ("max", none), ("min", none), ("median", none),
        ("sum", some 0), ("std", none), ("count", some 0)] := by
  rcases fast_zonal_stats_ok src admin n defaultStats s hs1 hs2 hn hlab hne with
    ⟨rows, largest, hok, hlen, hrow⟩
  refine ⟨_, hok, ?_⟩
  rw [List.getElem?_map, hrow i hi hin]
  simp [defaultStats_on_all_nan_row]

theorem zonal_reducer_empty_polygon_witness :
    ∃ out, fast_zonal_stats [[some 5, some 7]] [[some 0, none]] (some 2) defaultStats none =
        .ok out ∧
      out[1]? = some [("mean", none), ("max", none), ("min", none), ("median", none),
        ("sum", some 0), ("std", none), ("count", some 0)] :=
  zonal_reducer_empty_polygon [[some 5, some 7]] [[some 0, none]] 2 (1, 2) 1
    (by decide) (by decide) (by decide)
    (by
      intro v hv
      fin_cases hv
      · exact Or.inr ⟨0, by norm_num⟩
      · exact Or.inl rfl)
    ⟨some 0, by decide, by decide⟩
    (by
      intro v hv
      fin_cases hv
      · intro h
        rw [show ((1 : Nat) : Rat) = (1 : Rat) from by norm_num] at h
        exact absurd h (by decide)
      · intro h
        cases h)
    (by decide)

/-- C9: if the label raster contains no non-NaN cell at all (no polygon
covers any pixel center), `fast_zonal_stats` raises — the unique-label
array is empty and `geom_ids[0]` is an IndexError — instead of
returning `n_adms` all-NaN rows; the exact-row-count guarantee of the
reducer therefore requires at least one labeled cell. -/
theorem zonal_reducer_all_nan_labels (src admin : Arr2) (n_adms : Option Nat)
    (stats : List String) (rast_fill : Val) (s : Nat × Nat)
    (hs1 : rectShape src = some s) (hs2 : rectShape admin = some s)
    (h : ∀ v ∈ admin.flatten, v = none) :
    fast_zonal_stats src admin n_adms stats rast_fill =
      .error "IndexError: index 0 is out of bounds for axis 0 with size 0" := by
  have hnil : nonNaN admin.flatten = [] := by
    rw [nonNaN, List.filterMap_eq_nil_iff]
    intro a ha
    rw [h a ha]
    rfl
  unfold fast_zonal_stats
  rw [hs1, hs2]
  dsimp only
  rw [if_pos rfl]
  rw [show uniqueCounts (nonNaN admin.flatten) = [] from by rw [hnil]; rfl]

theorem zonal_reducer_all_nan_labels_witness :
    fast_zonal_stats [[some 1, some 2]] [[none, none]] (some 2) defaultStats none =
      .error "IndexError: index 0 is out of bounds for axis 0 with size 0" :=
  zonal_reducer_all_nan_labels [[some 1, some 2]] [[none, none]] (some 2) defaultStats
    none (1, 2) (by decide) (by decide)
    (by intro v hv; fin_cases hv <;> rfl)

/-- A name outside the supported set has no entry in the
`stat_functions` dictionary. -/
theorem statFns_unsupported (stName : String) (h : stName ∉ supportedStats) :
    statFns stName = none := by
  unfold statFns
  simp only [supportedStats, List.mem_cons, List.not_mem_nil, or_false] at h
  push_neg at h
  obtain ⟨h1, h2, h3, h4, h5, h6, h7, h8⟩ := h
  rw [if_neg h1, if_neg h2, if_neg h3, if_neg h4, if_neg h5, if_neg h6, if_neg h7, if_neg h8]

/-- C10: an entry of the `stats` argument that is not a supported
statistic name is silently skipped: the reducer still succeeds (no
error is raised on its account) and no per-polygon dictionary contains
a key for it. -/
theorem zonal_reducer_skips_unknown_stats (src admin : Arr2) (n : Nat)
    (stats : List String) (s : Nat × Nat) (stName : String)
    (hs1 : rectShape src = some s) (hs2 : rectShape admin = some s) (hn : n ≠ 0)
    (hlab : ∀ v ∈ admin.flatten, v = none ∨ ∃ k : Nat, v = some (k : Rat) ∧ k < n)
    (hne : ∃ v ∈ admin.flatten, v ≠ none)
    (hst : stName ∉ supportedStats) :
    ∃ out, fast_zonal_stats src admin (some n) stats none = .ok out ∧
      ∀ d ∈ out, ∀ kv ∈ d, kv.1 ≠ stName := by
  rcases fast_zonal_stats_ok src admin n stats s hs1 hs2 hn hlab hne with
    ⟨rows, largest, hok, hlen, _⟩
  refine ⟨_, hok, ?_⟩
  intro d hd kv hkv
  rcases List.mem_map.mp hd with ⟨row, hrow, hdrow⟩
  subst hdrow
  rcases List.mem_filterMap.mp hkv with ⟨st, hstm, hsteq⟩
  rcases hfn : statFns st with _ | f
  · rw [hfn] at hsteq
    cases hsteq
  · rw [hfn, Option.map_some'] at hsteq
    injection hsteq with h1
    subst h1
    dsimp only
    intro hc
    rw [hc, statFns_unsupported stName hst] at hfn
    cases hfn

theorem zonal_reducer_skips_unknown_stats_witness :
    ∃ out, fast_zonal_stats [[some 5, some 7]] [[some 0, none]] (some 1)
        ["mean", "p90", "count"] none = .ok out ∧
      ∀ d ∈ out, ∀ kv ∈ d, kv.1 ≠ "p90" :=
  zonal_reducer_skips_unknown_stats [[some 5, some 7]] [[some 0, none]] 1
    ["mean", "p90", "count"] (1, 2) "p90" (by decide) (by decide) (by decide)
    (by
      intro v hv
      fin_cases hv
      · exact Or.inr ⟨0, by norm_num⟩
      · exact Or.inl rfl)
    ⟨some 0, by decide, by decide⟩
    (by decide)

/-- A successful scatter preserves the number of rows (no bounds
assumptions: the loop either errors or sets existing rows). -/
theorem scatterRows_ok_length (srcF admF : List Val) :
    ∀ (gc : List (Rat × Nat)) (rows rows2 : List (List Val)),
      scatterRows srcF admF gc rows = .ok rows2 → rows2.length = rows.length := by
  intro gc
  induction gc with
  | nil =>
    intro rows rows2 h
    unfold scatterRows at h
    cases h
    rfl
  | cons x rest ih =>
    intro rows rows2 h
    rcases x with ⟨g, cnt⟩
    simp only [scatterRows] at h
    split at h <;> split at h <;>
      first
        | cases h
        | (have hih := ih _ rows2 h
           rw [hih, List.length_set])

/-- Inversion for the Zonal Reducer's row count: a successful run with
a supplied nonzero expected count returns exactly that many entries. -/
theorem fast_zonal_stats_some_length (src admin : Arr2) (n : Nat)
    (stats : List String) (fill : Val) (out : List (List (String × Val)))
    (hn : n ≠ 0) (h : fast_zonal_stats src admin (some n) stats fill = .ok out) :
    out.length = n := by
  unfold fast_zonal_stats at h
  cases hs1 : rectShape src with
  | none =>
    rw [hs1] at h
    cases h
  | some s1 =>
  rw [hs1] at h
  cases hs2 : rectShape admin with
  | none =>
    rw [hs2] at h
    dsimp only at h
    cases h
  | some s2 =>
  rw [hs2] at h
  dsimp only at h
  by_cases hss : s1 = s2
  case neg =>
    rw [if_neg hss] at h
    cases h
  rw [if_pos hss] at h
  cases hgc : uniqueCounts (nonNaN admin.flatten) with
  | nil =>
    rw [hgc] at h
    cases h
  | cons g0 rest =>
  rw [hgc] at h
  dsimp only at h
  cases hmn : listMaxNat (List.map Prod.snd
      (if pyEq (some g0.1) fill = true then rest else g0 :: rest)) with
  | none =>
    rw [hmn] at h
    dsimp only at h
    cases h
  | some largest =>
  rw [hmn] at h
  cases hmq : listMaxQ (List.map Prod.fst
      (if pyEq (some g0.1) fill = true then rest else g0 :: rest)) with
  | none =>
    rw [hmq] at h
    dsimp only at h
    cases h
  | some gmax =>
  rw [hmq] at h
  dsimp only at h
  rw [if_pos hn] at h
  cases hscat : scatterRows src.flatten admin.flatten
      (if pyEq (some g0.1) fill = true then rest else g0 :: rest)
      (List.replicate n (List.replicate largest fill)) with
  | error e =>
    rw [hscat] at h
    cases h
  | ok rows =>
  rw [hscat] at h
  dsimp only at h
  have hlen := scatterRows_ok_length _ _ _ _ _ hscat
  injection h with h2
  subst h2
  simp [hlen]

/-- A successful per-slice run emits exactly one record per polygon:
the reducer row count equals the supplied `len(adm_ids)` when it is
nonzero, and when the polygon list is empty a nonempty reducer output
would fail the positional pcode lookup, so success forces zero rows. -/
theorem process_slice_ok_length (now : Date) (iso3 : String) (admin : Arr2)
    (adm_ids : List String) (adm_level : Int) (stats : List String) (date : Date)
    (fourth : Option (String × Int)) (sl : Arr2) (rs : List OutRecord)
    (h : process_slice now iso3 admin adm_ids adm_level stats date fourth sl = .ok rs) :
    rs.length = adm_ids.length := by
  unfold process_slice at h
  cases hfz : fast_zonal_stats sl admin (some adm_ids.length) stats none with
  | error e =>
    rw [hfz] at h
    cases h
  | ok results =>
    rw [hfz] at h
    dsimp only at h
    have hlen := mapM_ok_length _ _ _ h
    by_cases hn : adm_ids.length = 0
    · cases results with
      | nil =>
        rw [hn]
        simpa using hlen
      | cons r0 rtail =>
        exfalso
        have hnil : adm_ids = [] := List.length_eq_zero.mp hn
        subst hnil
        rw [List.enum_cons, List.mapM_cons] at h
        have hatt : attachRecord now iso3 [] adm_level date fourth (0, r0) =
            .error "KeyError: positional pcode index out of range" := rfl
        rw [hatt] at h
        simp only [Bind.bind, Except.bind] at h
        cases h
    · have hfl := fast_zonal_stats_some_length sl admin adm_ids.length stats none
        results hn hfz
      rw [hlen, List.enum_length, hfl]

/-- Successful `mapM` over `Except` relates inputs and outputs
pointwise. -/
theorem mapM_ok_forall2 {α β : Type} (f : α → Except String β) :
    ∀ (l : List α) (l' : List β), l.mapM f = .ok l' →
      List.Forall₂ (fun a b => f a = .ok b) l l' := by
  intro l
  induction l with
  | nil =>
    intro l' h
    simp only [List.mapM_nil, pure, Except.pure, Except.ok.injEq] at h
    subst h
    exact List.Forall₂.nil
  | cons x xs ih =>
    intro l' h
    rw [List.mapM_cons] at h
    cases hfx : f x <;> cases hxs : xs.mapM f <;>
      simp only [hfx, hxs, Bind.bind, Except.bind, pure, Except.pure,
        Except.ok.injEq, reduceCtorEq] at h
    case ok.ok y ys =>
      subst h
      exact List.Forall₂.cons hfx (ih ys hxs)

/-- Transport a pointwise functional relation to equality of maps. -/
theorem forall2_map_eq {α β γ : Type} (f : α → γ) (g : β → γ)
    (l : List α) (l' : List β)
    (h : List.Forall₂ (fun a b => g b = f a) l l') : l'.map g = l.map f := by
  induction h with
  | nil => rfl
  | cons hrel _ ih => simp [ih, hrel]

/-- One date of the 4-D loop contributes one row per polygon for each
of its slices that is not entirely NaN, and nothing for the skipped
all-NaN slices. -/
theorem process_date_4d_ok_length (now : Date) (iso3 : String) (admin : Arr2)
    (adm_ids : List String) (adm_level : Int) (stats : List String)
    (dimName : String) (dsl : Date × List (Int × Arr2)) (ld : List OutRecord)
    (h : process_date_4d now iso3 admin adm_ids adm_level stats dimName dsl = .ok ld) :
    ld.length = (dsl.2.filter (fun p => !(allNaN p.2))).length * adm_ids.length := by
  unfold process_date_4d at h
  cases hm : (dsl.2.filter (fun p => !(allNaN p.2))).mapM
      (fun p => process_slice now iso3 admin adm_ids adm_level stats dsl.1
        (some (dimName, p.1)) p.2) with
  | error e =>
    rw [hm] at h
    cases h
  | ok parts =>
    rw [hm] at h
    dsimp only at h
    injection h with h2
    subst h2
    have hf2 := mapM_ok_forall2 _ _ _ hm
    have hmaps : parts.map List.length =
        (dsl.2.filter (fun p => !(allNaN p.2))).map (fun _ => adm_ids.length) := by
      refine forall2_map_eq _ _ _ _ ?_
      exact List.Forall₂.imp (fun a b hab => process_slice_ok_length _ _ _ _ _ _ _ _ _ _ hab) hf2
    rw [List.length_flatten, hmaps, List.map_const', List.sum_replicate, smul_eq_mul]

/-- Distribute a constant factor out of a summed map. -/
theorem sum_map_mul_right {α : Type} (l : List α) (f : α → Nat) (c : Nat) :
    (l.map (fun a => f a * c)).sum = (l.map f).sum * c := by
  induction l with
  | nil => simp
  | cons x xs ih =>
    simp only [List.map_cons, List.sum_cons, ih]
    ring

/-- C4: on a 4-D grid, the Batch Runner emits exactly one row per
polygon for every (date, fourth-dimension) slice that has at least one
non-NaN value, and zero rows for every slice that is entirely NaN —
skipped slices are excluded from the output row count entirely. -/
theorem runner_skips_all_nan_slices
    (burn : List (Geom × Nat) → Nat → Nat → Arr2) (simplify : Geom → Geom)
    (now : Date) (dimName : String) (slices : List (Date × List (Int × Arr2)))
    (gdf : GeoDataFrame) (adm_level : Int) (iso3 : String) (stats : List String)
    (w h : Nat) (out : List OutRecord) (g2 : GeoDataFrame)
    (hok : fast_zonal_stats_runner burn simplify now (.d4 dimName slices) gdf
      adm_level iso3 stats w h = (.ok out, g2)) :
    out.length =
      (slices.map (fun dsl => (dsl.2.filter (fun p => !(allNaN p.2))).length)).sum *
        gdf.pcodes.length := by
  unfold fast_zonal_stats_runner at hok
  dsimp only at hok
  rw [Prod.mk.injEq] at hok
  obtain ⟨hres, hg⟩ := hok
  have hpc : (rasterize_admin burn simplify gdf w h).2.pcodes = gdf.pcodes := rfl
  cases hm : slices.mapM (process_date_4d now iso3
      (rasterize_admin burn simplify gdf w h).1
      (rasterize_admin burn simplify gdf w h).2.pcodes adm_level stats dimName) with
  | error e =>
    rw [hm] at hres
    cases hres
  | ok ls =>
    rw [hm] at hres
    dsimp only at hres
    injection hres with h2
    subst h2
    have hf2 := mapM_ok_forall2 _ _ _ hm
    have hmaps : ls.map List.length =
        slices.map (fun dsl =>
          (dsl.2.filter (fun p => !(allNaN p.2))).length * gdf.pcodes.length) := by
      refine forall2_map_eq _ _ _ _ ?_
      refine List.Forall₂.imp ?_ hf2
      intro a b hab
      have hl := process_date_4d_ok_length _ _ _ _ _ _ _ _ _ hab
      rw [hl, hpc]
    rw [List.length_flatten, hmaps, sum_map_mul_right]

theorem runner_skips_all_nan_slices_witness :
    [leadtimeWitnessRecord].length =
      (witnessSlices4d.map
          (fun dsl => (dsl.2.filter (fun p => !(allNaN p.2))).length)).sum *
        witnessGdf.pcodes.length :=
  runner_skips_all_nan_slices (fun _ _ _ => [[some 0]]) id ⟨2026, 1, 1⟩ "leadtime"
    witnessSlices4d witnessGdf 1 "TST" defaultStats 1 1 [leadtimeWitnessRecord]
    witnessGdf (by decide)

/-- With an idempotent simplifier, re-invoking the Admin Rasterizer on
the frame state its own mutation left behind reproduces the same raster
and frame: the label raster is invariant across the date loop. -/
theorem rasterize_admin_idem (burn : List (Geom × Nat) → Nat → Nat → Arr2)
    (simplify : Geom → Geom) (gdf : GeoDataFrame) (w h : Nat)
    (hidem : ∀ g, simplify (simplify g) = simplify g) :
    rasterize_admin burn simplify (rasterize_admin burn simplify gdf w h).2 w h =
      rasterize_admin burn simplify gdf w h := by
  have hmap : (gdf.geometry.map simplify).map simplify = gdf.geometry.map simplify := by
    rw [List.map_map]
    exact List.map_congr_left (fun a _ => hidem a)
  unfold rasterize_admin
  dsimp only
  rw [hmap]

/-- The per-date 3-D loop with an idempotent simplifier computes the
same table as reducing every date against the raster built once from
the initial frame. -/
theorem runner_perdate_d3_eq (burn : List (Geom × Nat) → Nat → Nat → Arr2)
    (simplify : Geom → Geom) (now : Date) (adm_level : Int) (iso3 : String)
    (stats : List String) (w h : Nat)
    (hidem : ∀ g, simplify (simplify g) = simplify g) :
    ∀ (slices : List (Date × Arr2)) (gdf : GeoDataFrame),
      (runner_perdate_d3 burn simplify now adm_level iso3 stats w h slices gdf).1 =
        (match slices.mapM (fun dsl =>
            process_slice now iso3 (rasterize_admin burn simplify gdf w h).1
              (rasterize_admin burn simplify gdf w h).2.pcodes adm_level stats
              dsl.1 none dsl.2) with
          | .ok ls => .ok ls.flatten
          | .error e => .error e) := by
  intro slices
  induction slices with
  | nil =>
    intro gdf
    rfl
  | cons dsl rest ih =>
    intro gdf
    rw [List.mapM_cons]
    unfold runner_perdate_d3
    dsimp only
    cases hps : process_slice now iso3 (rasterize_admin burn simplify gdf w h).1
        (rasterize_admin burn simplify gdf w h).2.pcodes adm_level stats
        dsl.1 none dsl.2 with
    | error e =>
      simp only [hps, Bind.bind, Except.bind]
    | ok rs =>
      have ihx := ih (rasterize_admin burn simplify gdf w h).2
      rw [rasterize_admin_idem burn simplify gdf w h hidem] at ihx
      cases hrp : runner_perdate_d3 burn simplify now adm_level iso3 stats w h rest
          (rasterize_admin burn simplify gdf w h).2 with
      | mk res2 g2 =>
        rw [hrp] at ihx
        dsimp only at ihx
        cases hm : rest.mapM (fun dsl =>
            process_slice now iso3 (rasterize_admin burn simplify gdf w h).1
              (rasterize_admin burn simplify gdf w h).2.pcodes adm_level stats
              dsl.1 none dsl.2) with
        | error e =>
          rw [hm] at ihx
          dsimp only at ihx
          subst ihx
          simp only [hps, hm, Bind.bind, Except.bind]
          try rfl
        | ok ls =>
          rw [hm] at ihx
          dsimp only at ihx
          subst ihx
          simp only [hps, hm, Bind.bind, Except.bind, pure, Except.pure]
          try rfl

/-- The per-date 4-D loop with an idempotent simplifier computes the
same table as reducing every slice against the raster built once. -/
theorem runner_perdate_d4_eq (burn : List (Geom × Nat) → Nat → Nat → Arr2)
    (simplify : Geom → Geom) (now : Date) (adm_level : Int) (iso3 : String)
    (stats : List String) (w h : Nat) (dimName : String)
    (hidem : ∀ g, simplify (simplify g) = simplify g) :
    ∀ (slices : List (Date × List (Int × Arr2))) (gdf : GeoDataFrame),
      (runner_perdate_d4 burn simplify now adm_level iso3 stats w h dimName slices gdf).1 =
        (match slices.mapM (process_date_4d now iso3
            (rasterize_admin burn simplify gdf w h).1
            (rasterize_admin burn simplify gdf w h).2.pcodes adm_level stats dimName) with
          | .ok ls => .ok ls.flatten
          | .error e => .error e) := by
  intro slices
  induction slices with
  | nil =>
    intro gdf
    rfl
  | cons dsl rest ih =>
    intro gdf
    rw [List.mapM_cons]
    unfold runner_perdate_d4
    dsimp only
    cases hps : process_date_4d now iso3 (rasterize_admin burn simplify gdf w h).1
        (rasterize_admin burn simplify gdf w h).2.pcodes adm_level stats dimName dsl with
    | error e =>
      simp only [hps, Bind.bind, Except.bind]
    | ok rs =>
      have ihx := ih (rasterize_admin burn simplify gdf w h).2
      rw [rasterize_admin_idem burn simplify gdf w h hidem] at ihx
      cases hrp : runner_perdate_d4 burn simplify now adm_level iso3 stats w h dimName rest
          (rasterize_admin burn simplify gdf w h).2 with
      | mk res2 g2 =>
        rw [hrp] at ihx
        dsimp only at ihx
        cases hm : rest.mapM (process_date_4d now iso3
            (rasterize_admin burn simplify gdf w h).1
            (rasterize_admin burn simplify gdf w h).2.pcodes adm_level stats dimName) with
        | error e =>
          rw [hm] at ihx
          dsimp only at ihx
          subst ihx
          simp only [hps, hm, Bind.bind, Except.bind]
          try rfl
        | ok ls =>
          rw [hm] at ihx
          dsimp only at ihx
          subst ihx
          simp only [hps, hm, Bind.bind, Except.bind, pure, Except.pure]
          try rfl

/-- C6: the Batch Runner invokes the Admin Rasterizer once, before the
date loop, and reduces every date (and fourth-dimension) slice against
that single cached label raster; provided the external simplifier is
idempotent (so that re-simplifying already-simplified geometry is a
no-op), its result table equals what the variant re-rasterizing on
every date slice would produce — the label raster is invariant across
time. -/
theorem runner_single_rasterization_refines
    (burn : List (Geom × Nat) → Nat → Nat → Arr2) (simplify : Geom → Geom)
    (now : Date) (ds : RasterDS) (gdf : GeoDataFrame) (adm_level : Int)
    (iso3 : String) (stats : List String) (w h : Nat)
    (hidem : ∀ g, simplify (simplify g) = simplify g) :
    (fast_zonal_stats_runner burn simplify now ds gdf adm_level iso3 stats w h).1 =
      (fast_zonal_stats_runner_perdate burn simplify now ds gdf adm_level iso3 stats w h).1 := by
  cases ds with
  | d3 slices =>
    rw [show fast_zonal_stats_runner_perdate burn simplify now (.d3 slices) gdf
        adm_level iso3 stats w h =
      runner_perdate_d3 burn simplify now adm_level iso3 stats w h slices gdf from rfl]
    rw [runner_perdate_d3_eq burn simplify now adm_level iso3 stats w h hidem slices gdf]
    rfl
  | d4 dimName slices =>
    rw [show fast_zonal_stats_runner_perdate burn simplify now (.d4 dimName slices) gdf
        adm_level iso3 stats w h =
      runner_perdate_d4 burn simplify now adm_level iso3 stats w h dimName slices gdf from rfl]
    rw [runner_perdate_d4_eq burn simplify now adm_level iso3 stats w h dimName hidem slices gdf]
    rfl

theorem runner_single_rasterization_refines_witness :
    (fast_zonal_stats_runner (fun _ _ _ => adminFix1) id ⟨2026, 1, 1⟩
        (.d3 [(⟨2021, 1, 1⟩, srcDay1), (⟨2021, 1, 2⟩, srcDay2)])
        gdfFix1 1 "TST" defaultStats 4 4).1 =
      (fast_zonal_stats_runner_perdate (fun _ _ _ => adminFix1) id ⟨2026, 1, 1⟩
        (.d3 [(⟨2021, 1, 1⟩, srcDay1), (⟨2021, 1, 2⟩, srcDay2)])
        gdfFix1 1 "TST" defaultStats 4 4).1 :=
  runner_single_rasterization_refines (fun _ _ _ => adminFix1) id ⟨2026, 1, 1⟩
    (.d3 [(⟨2021, 1, 1⟩, srcDay1), (⟨2021, 1, 2⟩, srcDay2)])
    gdfFix1 1 "TST" defaultStats 4 4 (fun g => rfl)

/-- C8 (amended): the Admin Rasterizer does not leave the passed
collection unchanged: it overwrites the frame's geometry column with
the simplified geometry (`gdf["geometry"] = gdf["geometry"].simplify(...)`),
so after the call — and after the whole Batch Runner, which rasterizes
once — the caller's frame holds the simplified geometry; the pcode
column and row order are untouched, and the frame is unchanged exactly
when simplification fixes every geometry. -/
theorem rasterize_admin_mutates_geometry
    (burn : List (Geom × Nat) → Nat → Nat → Arr2) (simplify : Geom → Geom)
    (gdf : GeoDataFrame) (w h : Nat) :
    (rasterize_admin burn simplify gdf w h).2 =
      { gdf with geometry := gdf.geometry.map simplify } ∧
    (rasterize_admin burn simplify gdf w h).2.pcodes = gdf.pcodes ∧
    (∀ (ds : RasterDS) (now : Date) (adm_level : Int) (iso3 : String)
        (stats : List String),
      (fast_zonal_stats_runner burn simplify now ds gdf adm_level iso3 stats w h).2 =
        { gdf with geometry := gdf.geometry.map simplify }) ∧
    ((rasterize_admin burn simplify gdf w h).2 = gdf ↔
      gdf.geometry.map simplify = gdf.geometry) := by
  refine ⟨rfl, rfl, ?_, ?_⟩
  · intro ds now adm_level iso3 stats
    cases ds <;> rfl
  · constructor
    · intro hEq
      have := congrArg GeoDataFrame.geometry hEq
      simpa using this
    · intro hEq
      show ({ gdf with geometry := gdf.geometry.map simplify } : GeoDataFrame) = gdf
      rw [hEq]

theorem rasterize_admin_mutates_geometry_witness :
    (rasterize_admin (fun _ _ _ => [[none]]) dropCollinear collinearGdf 1 1).2 =
      { collinearGdf with geometry := collinearGdf.geometry.map dropCollinear } :=
  (rasterize_admin_mutates_geometry (fun _ _ _ => [[none]]) dropCollinear
    collinearGdf 1 1).1

/-- C8 counterexample: on a collection holding a square with one extra
exactly-collinear vertex, the Admin Rasterizer's geometry overwrite
changes the caller's frame (Douglas-Peucker removes any zero-deviation
vertex at the fixed positive tolerance), so the collection is not left
unchanged and the runner is not free of side effects on its inputs. -/
theorem rasterize_admin_mutation_counterexample :
    (rasterize_admin (fun _ _ _ => [[none]]) dropCollinear collinearGdf 1 1).2 ≠
      collinearGdf ∧
    (rasterize_admin (fun _ _ _ => [[none]]) dropCollinear collinearGdf 1 1).2.geometry =
      [[(0, 0), (2, 0), (2, 2), (0, 2)]] := by
  refine ⟨by decide, by decide⟩
